import Mathlib

/-
Verification of the data-integration mediator (`src/api/main.py`) against its
specification.  The pandas pipeline is embedded shallowly:

* a DataFrame column of numbers is a `List (Option ℚ)` (NaN = `none`);
* a pandas `Period('M')` month is a `Mes := Nat` (linearly ordered month index);
* a timestamp cell is a `DateVal`: either a parseable date (carrying its parsed
  value), an unparsable string, or a missing cell (NaN);
* `pd.to_datetime(..., errors='coerce')` is `to_datetime_coerce`;
* `groupby` (pandas default `sort=True, dropna=True`) extracts the deduplicated
  key list, drops null keys, and sorts keys lexicographically;
* `pd.merge(..., how='outer'/'inner')` (the code never passes `sort=True`) keeps
  the left rows in order, each matched against all right rows with an equal key,
  and for an outer join appends the unmatched right rows afterwards; two null
  keys compare equal, as pandas merge keys do;
* `Series.round(n)` is `round1` / `round2` (round to n decimals; pandas rounds
  half-to-even, Mathlib `round` rounds half-up — no statement below depends on
  the tie case);
* source acquisition failure is `none` in a `Snapshot`; the mediator's
  `integrated_data[name]` lookup of an absent source is a `KeyError`.

Batteries marks `Rat.add`/`sub`/`mul`/`inv` `@[irreducible]`; the attribute is
relaxed below (elaborator-only; the kernel is unaffected) so that concrete runs
of the embedded pipeline can be evaluated by `decide`.
-/

set_option maxHeartbeats 1000000

set_option allowUnsafeReducibility true

attribute [local semireducible] Rat.add Rat.sub Rat.mul Rat.inv

/-- Calendar month key (`Mes_año` in the code): a month index, e.g.
`12 * year + (month - 1)`.  Models a pandas `Period('M')`. -/
abbrev Mes := Nat

/-- A parsed timestamp at the granularity the mediator distinguishes:
its calendar month and a sub-month (day/hour) index.
`dt.to_period('M')` keeps only `mes`. -/
structure Fecha where
  mes : Mes
  sub : Nat
  deriving DecidableEq, Repr

/-- A raw timestamp cell of a source table: a parseable date string (carrying
its parsed value), an unparsable string, or a missing cell (NaN). -/
inductive DateVal where
  | valid (f : Fecha)
  | invalid
  | missing
  deriving DecidableEq, Repr

/-- Embeds `pd.to_datetime(col, errors='coerce')`: unparsable and missing cells both
become NaT (`none`). -/
def to_datetime_coerce (d : DateVal) : Option Fecha :=
  match d with
  | .valid f => some f
  | .invalid => none
  | .missing => none

/-- Embeds `Series.round(1)`. -/
def round1 (q : ℚ) : ℚ := ((round (q * 10) : ℤ) : ℚ) / 10

/-- Embeds `Series.round(2)`. -/
def round2 (q : ℚ) : ℚ := ((round (q * 100) : ℤ) : ℚ) / 100

/-- Pandas `sum` aggregation of a column: NaN cells are skipped and an
all-NaN (or empty) group sums to 0. -/
def psum (l : List (Option ℚ)) : ℚ := (l.filterMap id).sum

/-- Pandas `mean` aggregation of a column: the arithmetic mean of the non-NaN
cells, NaN (`none`) when there are none. -/
def pmean (l : List (Option ℚ)) : Option ℚ :=
  if (l.filterMap id).isEmpty then none
  else some ((l.filterMap id).sum / ((l.filterMap id).length : ℚ))

/-- Insert into a sorted list (helper for the groupby key sort). -/
def insertLe (le : α → α → Bool) (a : α) : List α → List α
  | [] => [a]
  | b :: t => if le a b then a :: b :: t else b :: insertLe le a t

/-- Insertion sort; models the key sort pandas `groupby` performs
(its default `sort=True`). -/
def sortLe (le : α → α → Bool) : List α → List α
  | [] => []
  | a :: t => insertLe le a (sortLe le t)

/-- Code-point comparison of strings as lists of characters (how pandas
orders string group keys). -/
def charsLe : List Char → List Char → Bool
  | [], _ => true
  | _ :: _, [] => false
  | a :: as, b :: bs => if a = b then charsLe as bs else decide (a < b)

/-- Lexicographic order on a `(Mes_año, Departamento)` group key. -/
def lexMesDep (a b : Mes × String) : Bool :=
  decide (a.1 < b.1) || (decide (a.1 = b.1) && charsLe a.2.data b.2.data)

/-- Embeds `pd.merge(ls, rs, on=key, how='outer')` with the code's default
`sort=False`: every left row paired with each right row of equal key (or with
`none` when unmatched), then the unmatched right rows.  Null keys match each
other, as in pandas. -/
def outerMerge [DecidableEq κ] (ka : α → κ) (kb : β → κ)
    (mk : α → Option β → γ) (mkR : β → γ) (ls : List α) (rs : List β) : List γ :=
  (ls.flatMap (fun l =>
    match rs.filter (fun r => decide (kb r = ka l)) with
    | [] => [mk l none]
    | ms => ms.map (fun r => mk l (some r))))
  ++ (rs.filter (fun r => !(ls.any (fun l => decide (ka l = kb r))))).map mkR

/-- Embeds `pd.merge(ls, rs, on=key, how='inner')`: unmatched rows on either side are
dropped. -/
def innerMerge [DecidableEq κ] (ka : α → κ) (kb : β → κ)
    (mk : α → β → γ) (ls : List α) (rs : List β) : List γ :=
  ls.flatMap (fun l => (rs.filter (fun r => decide (kb r = ka l))).map (mk l))

/-- A row of `INUMET_temperatura` after the wrapper's column normalization and
the rename `temp_aire -> temperatura_c`. -/
structure TempRow where
  fecha : DateVal
  estacion_id : String
  temperatura_c : Option ℚ
  deriving DecidableEq, Repr

/-- A row of `INUMET_humedad` after the rename `hum_relativa -> humedad_pje`. -/
structure HumRow where
  fecha : DateVal
  estacion_id : String
  humedad_pje : Option ℚ
  deriving DecidableEq, Repr

/-- A row of `INUMET_precipitaciones` after the rename
`precip_horario -> precipitacion_mm`. -/
structure PrecipRow where
  fecha : DateVal
  estacion_id : String
  precipitacion_mm : Option ℚ
  deriving DecidableEq, Repr

/-- A climate observation after `pd.to_datetime(df['fecha'], errors='coerce')`:
the common shape of the three metric tables entering the merges. -/
structure Obs where
  fecha : Option Fecha
  estacion_id : String
  val : Option ℚ
  deriving DecidableEq, Repr

/-- The `(fecha, estacion_id)` merge key of an observation. -/
def obsKey (o : Obs) : Option Fecha × String := (o.fecha, o.estacion_id)

/-- The table `df_temp` after date coercion. -/
def tempObs (l : List TempRow) : List Obs :=
  l.map (fun r => ⟨to_datetime_coerce r.fecha, r.estacion_id, r.temperatura_c⟩)

/-- The table `df_hum` after date coercion. -/
def humObs (l : List HumRow) : List Obs :=
  l.map (fun r => ⟨to_datetime_coerce r.fecha, r.estacion_id, r.humedad_pje⟩)

/-- The table `df_precip` after date coercion. -/
def precipObs (l : List PrecipRow) : List Obs :=
  l.map (fun r => ⟨to_datetime_coerce r.fecha, r.estacion_id, r.precipitacion_mm⟩)

/-- The fixed set of 19 region names (`DEPARTAMENTOS_URUGUAY` in the code). -/
def DEPARTAMENTOS_URUGUAY : List String :=
  ["Artigas", "Canelones", "Cerro Largo", "Colonia", "Durazno",
   "Flores", "Florida", "Lavalleja", "Maldonado", "Montevideo",
   "Paysandú", "Río Negro", "Rivera", "Rocha", "Salto",
   "San José", "Soriano", "Tacuarembó", "Treinta y Tres"]

/-- A station entry of the scraped INUMET directory, before filtering. -/
structure RawEstacion where
  nombreestacion : String
  departamento : String
  deriving DecidableEq, Repr

/-- A row of the station directory the scraper returns. -/
structure EstacionRow where
  estacion_id : String
  departamento : String
  deriving DecidableEq, Repr

/-- The scraper `wrapper_web_scraping_estaciones`: keeps only stations whose
`departamento` is one of the 19 region names, and returns
`(estacion_id, departamento)` pairs. -/
def wrapper_web_scraping_estaciones (raw : List RawEstacion) : List EstacionRow :=
  (raw.filter (fun r => DEPARTAMENTOS_URUGUAY.contains r.departamento)).map
    (fun r => ⟨r.nombreestacion, r.departamento⟩)

/-- A row of the first climate merge (temperature outer-joined with humidity
on `(fecha, estacion_id)`). -/
structure ClimaH1 where
  fecha : Option Fecha
  estacion_id : String
  temperatura_c : Option ℚ
  humedad_pje : Option ℚ
  deriving DecidableEq, Repr

/-- A row of `df_clima_horario` (after the second outer merge, with
precipitation). -/
structure ClimaH2 where
  fecha : Option Fecha
  estacion_id : String
  temperatura_c : Option ℚ
  humedad_pje : Option ℚ
  precipitacion_mm : Option ℚ
  deriving DecidableEq, Repr

/-- A row of `df_clima_horario` after the inner join with the station
directory (region enrichment). -/
structure ClimaH3 where
  fecha : Option Fecha
  estacion_id : String
  temperatura_c : Option ℚ
  humedad_pje : Option ℚ
  precipitacion_mm : Option ℚ
  departamento : String
  deriving DecidableEq, Repr

/-- The first climate merge: `df_temp.merge(df_hum[...], on=['fecha',
'estacion_id'], how='outer')`, on the date-coerced tables. -/
def clima_merge1 (T H : List Obs) : List ClimaH1 :=
  outerMerge obsKey obsKey
    (fun t h => ⟨t.fecha, t.estacion_id, t.val, h.bind Obs.val⟩)
    (fun h => ⟨h.fecha, h.estacion_id, none, h.val⟩)
    T H

/-- The table `df_clima_horario`: the second outer merge, adding precipitation. -/
def df_clima_horario (T H P : List Obs) : List ClimaH2 :=
  outerMerge (fun r : ClimaH1 => (r.fecha, r.estacion_id)) obsKey
    (fun r p => ⟨r.fecha, r.estacion_id, r.temperatura_c, r.humedad_pje, p.bind Obs.val⟩)
    (fun p => ⟨p.fecha, p.estacion_id, none, none, p.val⟩)
    (clima_merge1 T H) P

/-- The region enrichment: `df_clima_horario.merge(df_estaciones[...],
on='estacion_id', how='inner')` — readings from stations absent in the
directory are dropped. -/
def clima_enriquecido (T H P : List Obs) (est : List EstacionRow) : List ClimaH3 :=
  innerMerge ClimaH2.estacion_id EstacionRow.estacion_id
    (fun r e => ⟨r.fecha, r.estacion_id, r.temperatura_c, r.humedad_pje,
                 r.precipitacion_mm, e.departamento⟩)
    (df_clima_horario T H P) est

/-- The `(Mes_año, departamento)` group key of an enriched climate row
(`none` when the timestamp was NaT). -/
def climaClave (r : ClimaH3) : Option (Mes × String) :=
  (r.fecha.map Fecha.mes).map (fun m => (m, r.departamento))

/-- The group keys of `groupby(['Mes_año', 'departamento'])`: null keys
dropped, deduplicated, sorted (pandas groupby defaults). -/
def clavesClima (rows : List ClimaH3) : List (Mes × String) :=
  sortLe lexMesDep (rows.filterMap climaClave).dedup

/-- The provenance string the code attaches to the monthly climate table
(`', '.join([origen_precip, origen_temp, origen_hum])`). -/
def origen_fuente_clima_combinado : String :=
  "INUMET_precipitaciones, INUMET_temperatura, INUMET_humedad"

/-- A row of `df_clima_mensual` (after aggregation, rounding, renames, and the
provenance column). -/
structure ClimaMensualRow where
  mes_ano : Mes
  departamento : String
  precip_total_mm : ℚ
  temp_media_c : Option ℚ
  hum_media_pje : Option ℚ
  origen_fuente : String
  deriving DecidableEq, Repr

/-- The table `df_clima_mensual`: group the enriched hourly climate rows by
`(Mes_año, departamento)`; aggregate precipitation by sum, temperature and
humidity by mean; round each aggregate to 1 decimal. -/
def df_clima_mensual (temp : List TempRow) (hum : List HumRow)
    (precip : List PrecipRow) (est : List EstacionRow) : List ClimaMensualRow :=
  let rows := clima_enriquecido (tempObs temp) (humObs hum) (precipObs precip) est
  (clavesClima rows).map (fun k =>
    let g := rows.filter (fun r => decide (climaClave r = some k))
    ⟨k.1, k.2,
      round1 (psum (g.map ClimaH3.precipitacion_mm)),
      (pmean (g.map ClimaH3.temperatura_c)).map round1,
      (pmean (g.map ClimaH3.humedad_pje)).map round1,
      origen_fuente_clima_combinado⟩)

/-- The errors the mediator can raise: a `KeyError` from indexing
`integrated_data` with an absent source, or a `ValueError` from a
`pd.to_datetime`/`strptime` call whose `errors` policy is the default
`'raise'`. -/
inductive MedErr where
  | keyError (source : String)
  | valueError
  deriving DecidableEq, Repr

/-- The Spanish month-abbreviation table `MESES_MAP_ABR`.  The code maps to the
two-digit strings `'01'..'12'` which `to_datetime('%m-%Y')` then reads back;
the embedding composes the two and stores the month number.  (Note the key
`'sept'` has four letters while the code looks up the first three characters
of a label, so no label can ever hit it.) -/
def MESES_MAP_ABR : List (String × Nat) :=
  [("ene", 1), ("feb", 2), ("mar", 3), ("abr", 4), ("may", 5), ("jun", 6),
   ("jul", 7), ("ago", 8), ("sept", 9), ("oct", 10), ("nov", 11), ("dic", 12)]

/-- One character step of the `Produccion_kg` cleaning chain:
`.str.replace('.', '')` then `.str.replace(' ', '')` then
`.str.replace('-', '0')` then `.str.replace(',', '.')`.  All four replace every
occurrence; since each acts on single characters and none of the earlier steps
produces a character a later step touches again in a different way, the chain
equals this single pass. -/
def normChar (c : Char) : Option Char :=
  if c = '.' then none
  else if c = ' ' then none
  else if c = '-' then some '0'
  else if c = ',' then some '.'
  else some c

/-- The `Produccion_kg` string cleaning applied before numeric conversion. -/
def limpiar_produccion (s : String) : String := ⟨s.data.filterMap normChar⟩

/-- Numeric value of a digit list (most significant first). -/
def digitsVal (l : List Char) : Nat :=
  l.foldl (fun a c => 10 * a + (c.toNat - 48)) 0

/-- Every character is a decimal digit. -/
def allDigits (l : List Char) : Bool := l.all Char.isDigit

/-- Embeds `str.split('.')` on a character list. -/
def splitDot : List Char → List (List Char)
  | [] => [[]]
  | c :: t =>
    if c = '.' then [] :: splitDot t
    else
      match splitDot t with
      | [] => [[c]]
      | h :: r => (c :: h) :: r

/-- Embeds `pd.to_numeric(col, errors='coerce')` on one cleaned cell, restricted to
the unsigned decimal forms the cleaning step can produce from the dataset's
locale-formatted quantities ( digit runs with at most one decimal point; a
sign cannot survive the cleaning, and letter strings such as `'nan'` — the
`astype(str)` image of a missing cell — coerce to NaN). -/
def to_numeric (s : String) : Option ℚ :=
  match splitDot s.data with
  | [a] =>
    if a.isEmpty || !(allDigits a) then none else some ((digitsVal a : ℚ))
  | [a, b] =>
    if (a.isEmpty && b.isEmpty) || !(allDigits a) || !(allDigits b) then none
    else some ((digitsVal a : ℚ) + (digitsVal b : ℚ) / (10 : ℚ) ^ b.length)
  | _ => none

/-- A row of the wide UAM production table after the wrapper: its species
column and, for each month-label column kept by the drop of
`['grupo', 'variedad', 'especie', 'unidad', 'origen_fuente']`, the cell as the
string `astype(str)` yields (a missing cell reads `"nan"`).  The `melt` below
enumerates cells row-major where pandas goes column-major: the two differ by a
permutation, and every later consumer aggregates by sorted month key, so all
downstream values and orders agree. -/
structure ProdRow where
  especie : String
  celdas : List (String × String)
  deriving DecidableEq, Repr

/-- Filter to the target species and unpivot (`melt`): one `(Mes_Bruto,
Produccion_kg)` pair per kept cell. -/
def melt_produccion (prod : List ProdRow) : List (String × String) :=
  (prod.filter (fun r => r.especie == "Manzana")).flatMap ProdRow.celdas

/-- Clean each melted quantity, convert with `to_numeric(errors='coerce')`,
and drop the rows whose quantity became NaN (`dropna(subset=['Produccion_kg'])`). -/
def produccion_valores (prod : List ProdRow) : List (String × ℚ) :=
  (melt_produccion prod).filterMap
    (fun c => (to_numeric (limpiar_produccion c.2)).map (fun q => (c.1, q)))

/-- A `strptime` `%Y` year field: one to four digits. -/
def parseYearStr (l : List Char) : Option Nat :=
  if l.isEmpty || decide (4 < l.length) || !(allDigits l) then none
  else some (digitsVal l)

/-- The month-label processing of one `Mes_Bruto` value: the first three
characters through `MESES_MAP_ABR` (no match gives a NaN month, which
`to_datetime` passes through as NaT and `groupby` later drops), the rest
prefixed with `"20"` and read as the `%Y` year of
`pd.to_datetime(format='%m-%Y')` — whose `errors` default `'raise'` makes a
malformed year abort the run. -/
def mes_ano_de_etiqueta (label : String) : Except MedErr (Option Mes) :=
  match MESES_MAP_ABR.lookup (⟨label.data.take 3⟩ : String) with
  | none => .ok none
  | some m =>
    match parseYearStr ('2' :: '0' :: label.data.drop 3) with
    | some y => .ok (some (12 * y + (m - 1)))
    | none => .error .valueError

/-- Attach the parsed month to every surviving production row. -/
def produccion_con_mes (l : List (String × ℚ)) :
    Except MedErr (List (Option Mes × ℚ)) :=
  l.mapM (fun c => (mes_ano_de_etiqueta c.1).map (fun om => (om, c.2)))

/-- The table `df_produccion_mensual`: group the reshaped production rows by `Mes_año`
(dropping NaT keys) and sum the quantities. -/
def df_produccion_mensual (prod : List ProdRow) :
    Except MedErr (List (Mes × ℚ)) := do
  let rows ← produccion_con_mes (produccion_valores prod)
  let con := rows.filterMap (fun r => r.1.map (fun m => (m, r.2)))
  let claves := sortLe (fun a b => decide (a ≤ b)) (con.map Prod.fst).dedup
  return claves.map (fun m =>
    (m, ((con.filter (fun r => decide (r.1 = m))).map Prod.snd).sum))

/-- A row of the local `filtered_precios.csv` after the wrapper. -/
structure PrecioRow where
  establecimiento : Nat
  fecha : DateVal
  precio_val : Option ℚ
  deriving DecidableEq, Repr

/-- A row of `MEF_establecimientos` after the wrapper (the column `precio_val`
embeds the source column `precio`). -/
structure EstabRow where
  idestablecimientos : Nat
  iddepto : Nat
  depto : String
  deriving DecidableEq, Repr

/-- A row of the inner merge of prices with establishments. -/
structure PrecioMerged where
  fecha : DateVal
  precio_val : Option ℚ
  iddepto : Nat
  depto : String
  deriving DecidableEq, Repr

/-- Embeds `pd.merge(df_precios, df_establecimientos, left_on='establecimiento',
right_on='idestablecimientos', how='inner')`. -/
def precios_merged (precios : List PrecioRow) (estab : List EstabRow) :
    List PrecioMerged :=
  innerMerge PrecioRow.establecimiento EstabRow.idestablecimientos
    (fun p e => ⟨p.fecha, p.precio_val, e.iddepto, e.depto⟩) precios estab

/-- Embeds `pd.to_datetime(merged['fecha'], format='mixed')` with the default
`errors='raise'`: a missing cell becomes NaT, but an unparsable string raises
`ValueError` for the whole run. -/
def to_datetime_mixed (d : DateVal) : Except MedErr (Option Fecha) :=
  match d with
  | .valid f => .ok (some f)
  | .missing => .ok none
  | .invalid => .error .valueError

/-- A merged price row after date parsing, NaT drop, and month truncation. -/
structure PrecioFechado where
  mes_ano : Mes
  precio_val : Option ℚ
  iddepto : Nat
  depto : String
  deriving DecidableEq, Repr

/-- Parse the merged dates (raising on an unparsable one), drop the NaT rows
(`dropna(subset=['fecha'])`), truncate to month. -/
def precios_fechados (rows : List PrecioMerged) :
    Except MedErr (List PrecioFechado) := do
  let parsed ← rows.mapM (fun r => (to_datetime_mixed r.fecha).map (fun of => (of, r)))
  return parsed.filterMap
    (fun p => p.1.map (fun f => ⟨f.mes, p.2.precio_val, p.2.iddepto, p.2.depto⟩))

/-- Strict code-point comparison of character lists. -/
def charsLt : List Char → List Char → Bool
  | [], [] => false
  | [], _ :: _ => true
  | _ :: _, [] => false
  | a :: as, b :: bs => if a = b then charsLt as bs else decide (a < b)

/-- The `(iddepto, depto, Mes_año)` group key of a price row. -/
def precioClave (r : PrecioFechado) : Nat × String × Mes :=
  (r.iddepto, r.depto, r.mes_ano)

/-- Lexicographic order on price group keys. -/
def lexPrecio (a b : Nat × String × Mes) : Bool :=
  decide (a.1 < b.1) ||
  (decide (a.1 = b.1) &&
    (charsLt a.2.1.data b.2.1.data ||
      (decide (a.2.1 = b.2.1) && decide (a.2.2 ≤ b.2.2))))

/-- A row of `df_precios_mensual` (columns kept: `Mes_año`, `Departamento`,
`Precio_kg`). -/
structure PrecioMensualRow where
  mes_ano : Mes
  departamento : String
  precio_kg : Option ℚ
  deriving DecidableEq, Repr

/-- The table `df_precios_mensual`: group the dated price rows by
`(iddepto, depto, Mes_año)`, average `precio`, round to 2 decimals, rename
`depto` to `Departamento`, and keep `[Mes_año, Departamento, Precio_kg]`. -/
def df_precios_mensual (precios : List PrecioRow) (estab : List EstabRow) :
    Except MedErr (List PrecioMensualRow) := do
  let rows ← precios_fechados (precios_merged precios estab)
  let claves := sortLe lexPrecio (rows.map precioClave).dedup
  return claves.map (fun k =>
    let g := rows.filter (fun r => decide (precioClave r = k))
    ⟨k.2.2, k.2.1, (pmean (g.map PrecioFechado.precio_val)).map round2⟩)

/-- A row of `df_global` after the first fusion (climate outer-joined with the
monthly production total on `Mes_año` alone, broadcasting the national total
across the month's region rows; a production-only month gets a null
`Departamento` and null climate columns). -/
structure GlobalRow1 where
  mes_ano : Mes
  departamento : Option String
  precip_total_mm : Option ℚ
  temp_media_c : Option ℚ
  hum_media_pje : Option ℚ
  produccion_kg : Option ℚ
  origen_fuente : Option String
  deriving DecidableEq, Repr

/-- Fusion 1: `df_clima_mensual.merge(df_produccion_mensual, on='Mes_año',
how='outer')`. -/
def fusion1 (clima : List ClimaMensualRow) (prodm : List (Mes × ℚ)) :
    List GlobalRow1 :=
  outerMerge ClimaMensualRow.mes_ano Prod.fst
    (fun c p => ⟨c.mes_ano, some c.departamento, some c.precip_total_mm,
                 c.temp_media_c, c.hum_media_pje, p.map Prod.snd,
                 some c.origen_fuente⟩)
    (fun p => ⟨p.1, none, none, none, none, some p.2, none⟩)
    clima prodm

/-- A row of `df_global` after the second fusion (prices outer-joined on
`(Mes_año, Departamento)`). -/
structure GlobalRow2 where
  mes_ano : Mes
  departamento : Option String
  precip_total_mm : Option ℚ
  temp_media_c : Option ℚ
  hum_media_pje : Option ℚ
  produccion_kg : Option ℚ
  precio_kg : Option ℚ
  origen_fuente : Option String
  deriving DecidableEq, Repr

/-- Fusion 2: `df_global.merge(df_precios_mensual,
on=['Mes_año', 'Departamento'], how='outer')`. -/
def fusion2 (g1 : List GlobalRow1) (prec : List PrecioMensualRow) :
    List GlobalRow2 :=
  outerMerge (fun r : GlobalRow1 => (r.mes_ano, r.departamento))
    (fun p : PrecioMensualRow => (p.mes_ano, some p.departamento))
    (fun r p => ⟨r.mes_ano, r.departamento, r.precip_total_mm, r.temp_media_c,
                 r.hum_media_pje, r.produccion_kg,
                 p.bind PrecioMensualRow.precio_kg, r.origen_fuente⟩)
    (fun p => ⟨p.mes_ano, some p.departamento, none, none, none, none,
               p.precio_kg, none⟩)
    g1 prec

/-- The column list `ESQUEMA_GLOBAL_FINAL` of the code — the final projection
`df_global[ESQUEMA_GLOBAL_FINAL]`.  (`'origen_fuente'` appears in the source
only as a commented-out entry.) -/
def ESQUEMA_GLOBAL_FINAL : List String :=
  ["Mes_año", "Departamento", "Precip_Total_mm", "Temp_Media_C", "Hum_Media_Pje",
   "Produccion_kg", "Precio_kg"]

/-- A row of `vista_global_final`: exactly the columns of
`ESQUEMA_GLOBAL_FINAL`. -/
structure VistaRow where
  mes_ano : Mes
  departamento : Option String
  precip_total_mm : Option ℚ
  temp_media_c : Option ℚ
  hum_media_pje : Option ℚ
  produccion_kg : Option ℚ
  precio_kg : Option ℚ
  deriving DecidableEq, Repr

/-- The final projection `df_global[ESQUEMA_GLOBAL_FINAL]`: keeps every row
and drops the remaining column (`origen_fuente`). -/
def vista_global_final (rows : List GlobalRow2) : List VistaRow :=
  rows.map (fun r => ⟨r.mes_ano, r.departamento, r.precip_total_mm,
                      r.temp_media_c, r.hum_media_pje, r.produccion_kg,
                      r.precio_kg⟩)

/-- The data available from the seven upstream sources for one integration
run: `none` means the source failed to load (timeout, HTTP error, decode
failure) and the wrapper returned an empty table. -/
structure Snapshot where
  temperatura : Option (List TempRow)
  humedad : Option (List HumRow)
  precipitaciones : Option (List PrecipRow)
  estaciones : Option (List RawEstacion)
  precios : Option (List PrecioRow)
  establecimientos : Option (List EstabRow)
  produccion : Option (List ProdRow)
  deriving DecidableEq, Repr

/-- The loading loop stores a source in `integrated_data` only when its
wrapped table is non-empty (`if not df_source.empty`). -/
def cargado (o : Option (List α)) : Option (List α) :=
  match o with
  | none => none
  | some l => if l.isEmpty then none else some l

/-- The station directory passes through the scraper before the same
non-emptiness check. -/
def cargadoEstaciones (o : Option (List RawEstacion)) : Option (List EstacionRow) :=
  cargado (o.map wrapper_web_scraping_estaciones)

/-- Accessing `integrated_data[name]`: raises `KeyError(name)` when the source was not
stored. -/
def accede (name : String) (o : Option (List α)) : Except MedErr (List α) :=
  match o with
  | some l => .ok l
  | none => .error (.keyError name)

/-- What a run of `mediador()` can return: the early exit
`return integrated_data` when no source at all loaded (an empty dict, not a
DataFrame), or the final unified view. -/
inductive MedResult where
  | sinFuentes
  | vista (rows : List VistaRow)
  deriving DecidableEq, Repr

/-- The check `if not integrated_data:` — every one of the seven sources failed the
load-and-store check. -/
def todasAusentes (s : Snapshot) : Bool :=
  (cargado s.temperatura).isNone && (cargado s.humedad).isNone &&
  (cargado s.precipitaciones).isNone && (cargadoEstaciones s.estaciones).isNone &&
  (cargado s.precios).isNone && (cargado s.establecimientos).isNone &&
  (cargado s.produccion).isNone

/-- The mediator `mediador()`: load all sources; return early when none
loaded; otherwise index `integrated_data` for each source in the order the
code does (climate at lines 212-215, production at line 268, prices and
establishments at lines 347-348), run the three resolvers, fuse, and project
onto `ESQUEMA_GLOBAL_FINAL`.  An absent source raises `KeyError`; a
`ValueError` from either `to_datetime` call with default `errors='raise'`
propagates. -/
def mediador (s : Snapshot) : Except MedErr MedResult := do
  if todasAusentes s then return .sinFuentes
  let temp ← accede "INUMET_temperatura" (cargado s.temperatura)
  let hum ← accede "INUMET_humedad" (cargado s.humedad)
  let precip ← accede "INUMET_precipitaciones" (cargado s.precipitaciones)
  let est ← accede "INUMET_estaciones" (cargadoEstaciones s.estaciones)
  let clima := df_clima_mensual temp hum precip est
  let prod ← accede "UAM_produccion" (cargado s.produccion)
  let prodMensual ← df_produccion_mensual prod
  let precios ← accede "MEF_precios" (cargado s.precios)
  let estab ← accede "MEF_establecimientos" (cargado s.establecimientos)
  let preciosMensual ← df_precios_mensual precios estab
  return .vista (vista_global_final (fusion2 (fusion1 clima prodMensual) preciosMensual))

/-- Whether a mediator run produced a view containing some row whose region
column holds the given value. -/
def tieneDepartamento (res : Except MedErr MedResult) (d : String) : Bool :=
  match res with
  | .ok (.vista rows) => rows.any (fun r => r.departamento == some d)
  | _ => false

/-- Whether a list of months is weakly increasing (a necessary condition for
any sort by `(Mes_año, Departamento)`). -/
def mesesCrecientes : List Mes → Bool
  | [] => true
  | [_] => true
  | a :: b :: t => decide (a ≤ b) && mesesCrecientes (b :: t)

/-- Whether a mediator run produced a view whose months are weakly
increasing. -/
def mesesOrdenados (res : Except MedErr MedResult) : Bool :=
  match res with
  | .ok (.vista rows) => mesesCrecientes (rows.map VistaRow.mes_ano)
  | _ => false

/-- A snapshot where exactly the four climate sources load (production and
price sources absent). -/
def snapClimaSolo : Snapshot where
  temperatura := some [⟨.valid ⟨600, 0⟩, "A", some 20⟩]
  humedad := some [⟨.valid ⟨600, 0⟩, "A", some 50⟩]
  precipitaciones := some [⟨.valid ⟨600, 0⟩, "A", some 3⟩]
  estaciones := some [⟨"A", "Canelones"⟩]
  precios := none
  establecimientos := none
  produccion := none

/-- A snapshot where the three climate metric sources load but the station
directory is absent. -/
def snapSinEstaciones : Snapshot where
  temperatura := some [⟨.valid ⟨600, 0⟩, "A", some 20⟩]
  humedad := some [⟨.valid ⟨600, 0⟩, "A", some 50⟩]
  precipitaciones := some [⟨.valid ⟨600, 0⟩, "A", some 3⟩]
  estaciones := none
  precios := some [⟨1, .valid ⟨600, 0⟩, some 10⟩]
  establecimientos := some [⟨1, 5, "Montevideo"⟩]
  produccion := some [⟨"Manzana", [("ene07", "1")]⟩]

/-- A snapshot where every source loads but one price observation carries an
unparsable timestamp (and its establishment does match). -/
def snapFechaInvalida : Snapshot where
  temperatura := some [⟨.valid ⟨24084, 0⟩, "A", some 20⟩]
  humedad := some [⟨.valid ⟨24084, 0⟩, "A", some 50⟩]
  precipitaciones := some [⟨.valid ⟨24084, 0⟩, "A", some 3⟩]
  estaciones := some [⟨"A", "Canelones"⟩]
  precios := some [⟨1, .invalid, some 10⟩]
  establecimientos := some [⟨1, 5, "Montevideo"⟩]
  produccion := some [⟨"Manzana", [("ene07", "1")]⟩]

/-- C1, counterexample.  The claim says the mediator returns a (possibly
empty) result no matter which subset of sources fails, and in particular
returns climate rows with null production/price columns when only the climate
sources load.  On this climate-only snapshot the code instead reaches
`integrated_data['UAM_produccion']` (line 268) and raises `KeyError`. -/
theorem C1_counterexample :
    mediador snapClimaSolo = .error (.keyError "UAM_produccion") := by rfl

/-- C1, amended: the mediator returns an (empty) result only when all seven
sources fail to load; when the four climate sources load but the production
source is absent, it raises `KeyError('UAM_produccion')` instead of returning
rows with null production/price columns. -/
theorem C1_theorem (s : Snapshot) (t : List TempRow) (h : List HumRow)
    (p : List PrecipRow) (e : List EstacionRow)
    (ht : cargado s.temperatura = some t) (hh : cargado s.humedad = some h)
    (hp : cargado s.precipitaciones = some p)
    (he : cargadoEstaciones s.estaciones = some e)
    (hprod : cargado s.produccion = none) :
    mediador s = .error (.keyError "UAM_produccion") := by
  have hta : todasAusentes s = false := by
    simp [todasAusentes, ht]
  simp only [mediador, hta, ht, hh, hp, he, hprod, accede]
  rfl

/-- C1, witness for the amended theorem at the climate-only snapshot. -/
theorem C1_witness :
    cargado snapClimaSolo.temperatura = some [⟨.valid ⟨600, 0⟩, "A", some 20⟩] ∧
    cargado snapClimaSolo.produccion = none ∧
    mediador snapClimaSolo = .error (.keyError "UAM_produccion") :=
  ⟨rfl, rfl,
    C1_theorem snapClimaSolo _ _ _ _ rfl rfl rfl rfl rfl⟩

/-- C7, counterexample.  The claim says an absent station directory makes the
climate resolver fall back to `station_id` as the region.  There is no such
fallback in the code: with the directory absent (and the metric sources
present) the run raises `KeyError('INUMET_estaciones')` at line 215. -/
theorem C7_counterexample :
    mediador snapSinEstaciones = .error (.keyError "INUMET_estaciones") := by rfl

/-- C7, amended: there is no station-directory fallback; whenever the three
climate metric sources load and the directory is absent, the mediator raises
`KeyError('INUMET_estaciones')` (no monthly climate table is produced). -/
theorem C7_theorem (s : Snapshot) (t : List TempRow) (h : List HumRow)
    (p : List PrecipRow)
    (ht : cargado s.temperatura = some t) (hh : cargado s.humedad = some h)
    (hp : cargado s.precipitaciones = some p)
    (he : cargadoEstaciones s.estaciones = none) :
    mediador s = .error (.keyError "INUMET_estaciones") := by
  have hta : todasAusentes s = false := by
    simp [todasAusentes, ht]
  simp only [mediador, hta, ht, hh, hp, he, accede]
  rfl

/-- C7, witness for the amended theorem at the directory-less snapshot. -/
theorem C7_witness :
    cargadoEstaciones snapSinEstaciones.estaciones = none ∧
    mediador snapSinEstaciones = .error (.keyError "INUMET_estaciones") :=
  ⟨rfl, C7_theorem snapSinEstaciones _ _ _ rfl rfl rfl rfl⟩

/-- C6: the claim (and the `dropna(subset=['fecha'])` on the very next line of
the code) expects an unparsable price timestamp to drop that row only; but
`pd.to_datetime(merged['fecha'], format='mixed')` at line 360 keeps the
default `errors='raise'`, so one bad timestamp raises `ValueError` and aborts
the whole integration run.  This evaluates the code at the failing input. -/
theorem C6_theorem :
    mediador snapFechaInvalida = .error .valueError := by rfl

/-- C9: the embedded mediator is a pure function of the snapshot — two runs
over byte-identical source snapshots return identical results, row order
included.  (The in-process TTL cache and the network live outside `mediador`;
every pipeline step is deterministic.) -/
theorem C9_theorem (s₁ s₂ : Snapshot) (h : s₁ = s₂) :
    mediador s₁ = mediador s₂ := by rw [h]

/-- C9, witness: the determinism theorem applied to a concrete snapshot. -/
theorem C9_witness : mediador snapClimaSolo = mediador snapClimaSolo :=
  C9_theorem snapClimaSolo snapClimaSolo rfl

/-- Whether a mediator run completed and produced the unified view. -/
def esVista (res : Except MedErr MedResult) : Bool :=
  match res with
  | .ok (.vista _) => true
  | _ => false

/-- A snapshot where every source loads and the establishment directory
carries a region name outside the fixed 19-region set. -/
def snapDeptoExtra : Snapshot where
  temperatura := some [⟨.valid ⟨24084, 0⟩, "A", some 20⟩]
  humedad := some [⟨.valid ⟨24084, 0⟩, "A", some 50⟩]
  precipitaciones := some [⟨.valid ⟨24084, 0⟩, "A", some 3⟩]
  estaciones := some [⟨"A", "Canelones"⟩]
  precios := some [⟨1, .valid ⟨24084, 0⟩, some 10⟩]
  establecimientos := some [⟨1, 99, "Buenos Aires"⟩]
  produccion := some [⟨"Manzana", [("ene07", "1")]⟩]

/-- A snapshot where every source loads, the climate data lies in month 24084
and the only price observation in the earlier month 24083. -/
def snapDesordenado : Snapshot where
  temperatura := some [⟨.valid ⟨24084, 0⟩, "A", some 20⟩]
  humedad := some [⟨.valid ⟨24084, 0⟩, "A", some 50⟩]
  precipitaciones := some [⟨.valid ⟨24084, 0⟩, "A", some 3⟩]
  estaciones := some [⟨"A", "Canelones"⟩]
  precios := some [⟨1, .valid ⟨24083, 0⟩, some 10⟩]
  establecimientos := some [⟨1, 3, "Salto"⟩]
  produccion := some [⟨"Manzana", [("ene07", "1")]⟩]

/-- C2, counterexample.  The claim says every region value of the final
output lies in the 19-name set.  The price branch copies `depto` from the
establishment directory without validation: with an establishment in
"Buenos Aires", the final view contains a "Buenos Aires" row. -/
theorem C2_counterexample :
    tieneDepartamento (mediador snapDeptoExtra) "Buenos Aires" = true ∧
    DEPARTAMENTOS_URUGUAY.contains "Buenos Aires" = false := ⟨rfl, rfl⟩

/-- C5, counterexample.  The claim says the final output is sorted by
`(month, region)`.  The code never sorts the fused frame: with the default
`sort=False`, rows only present on the right side of the price outer-join are
appended after the climate-derived base, so a price-only earlier month ends
up after a later climate month and the months are not even weakly
increasing. -/
theorem C5_counterexample :
    esVista (mediador snapDesordenado) = true ∧
    mesesOrdenados (mediador snapDesordenado) = false := ⟨rfl, rfl⟩

/-- C4, counterexample.  The claim says every row of the final unified output
carries a provenance label; but the final projection
`df_global[ESQUEMA_GLOBAL_FINAL]` omits `origen_fuente` (it is commented out
of the schema list at line 405), so no provenance column reaches the
output. -/
theorem C4_counterexample :
    ESQUEMA_GLOBAL_FINAL.contains "origen_fuente" = false := by rfl

/-- C4, amended: no per-row provenance label reaches the final unified
output — `origen_fuente` is excluded from `ESQUEMA_GLOBAL_FINAL`; the only
provenance the mediator computes is the fixed three-source climate label,
attached uniformly to every row of the intermediate monthly climate table. -/
theorem C4_theorem (temp : List TempRow) (hum : List HumRow)
    (precip : List PrecipRow) (est : List EstacionRow) (r : ClimaMensualRow)
    (hr : r ∈ df_clima_mensual temp hum precip est) :
    r.origen_fuente = origen_fuente_clima_combinado ∧
    ESQUEMA_GLOBAL_FINAL.contains "origen_fuente" = false := by
  refine ⟨?_, rfl⟩
  unfold df_clima_mensual at hr
  rw [List.mem_map] at hr
  obtain ⟨k, _, hk⟩ := hr
  rw [← hk]

/-- The one-station example tables used by several witnesses below. -/
def tempEj : List TempRow := [⟨.valid ⟨600, 0⟩, "A", some 20⟩]

/-- Example humidity table. -/
def humEj : List HumRow := [⟨.valid ⟨600, 0⟩, "A", some 50⟩]

/-- Example precipitation table. -/
def precipEj : List PrecipRow := [⟨.valid ⟨600, 0⟩, "A", some 3⟩]

/-- Example station directory. -/
def estEj : List EstacionRow := [⟨"A", "Canelones"⟩]

/-- The monthly climate row the example tables aggregate to. -/
def climaEjRow : ClimaMensualRow :=
  ⟨600, "Canelones", 3, some 20, some 50, origen_fuente_clima_combinado⟩

/-- C4, witness for the amended theorem at a one-station snapshot. -/
theorem C4_witness :
    climaEjRow ∈ df_clima_mensual tempEj humEj precipEj estEj ∧
    climaEjRow.origen_fuente = origen_fuente_clima_combinado ∧
    ESQUEMA_GLOBAL_FINAL.contains "origen_fuente" = false :=
  ⟨by decide, C4_theorem tempEj humEj precipEj estEj climaEjRow (by decide)⟩

/-- C10: the quantity cleaning deletes every `'.'` and `' '` and replaces
every `'-'` anywhere in the string (not only a lone dash) by `'0'` before
`to_numeric`; consequently a dash-bearing numeric string is neither dropped
nor treated as missing — `"-5"` parses as `5`, `"1-2"` as `102` — and any
quantity that parses after cleaning is non-negative. -/
theorem C10_theorem :
    (∀ s : String, '-' ∉ (limpiar_produccion s).data ∧
      ' ' ∉ (limpiar_produccion s).data) ∧
    limpiar_produccion "-5" = "05" ∧
    to_numeric (limpiar_produccion "-5") = some 5 ∧
    limpiar_produccion "1-2" = "102" ∧
    to_numeric (limpiar_produccion "1-2") = some 102 ∧
    (∀ s : String, ∀ q : ℚ,
      to_numeric (limpiar_produccion s) = some q → 0 ≤ q) := by
  refine ⟨?_, by decide, by decide, by decide, by decide, ?_⟩
  · intro s
    constructor
    · intro hm
      rw [limpiar_produccion] at hm
      simp only [List.mem_filterMap] at hm
      obtain ⟨a, _, ha⟩ := hm
      unfold normChar at ha
      split_ifs at ha <;> simp_all
    · intro hm
      rw [limpiar_produccion] at hm
      simp only [List.mem_filterMap] at hm
      obtain ⟨a, _, ha⟩ := hm
      unfold normChar at ha
      split_ifs at ha <;> simp_all
  · intro s q hq
    unfold to_numeric at hq
    split at hq
    · split_ifs at hq
      simp only [Option.some.injEq] at hq
      rw [← hq]
      positivity
    · split_ifs at hq
      simp only [Option.some.injEq] at hq
      rw [← hq]
      positivity
    · exact absurd hq (by simp)

/-- C10, witness: the non-negativity implication discharged at the dash input
`"-5"`. -/
theorem C10_witness : (0 : ℚ) ≤ 5 :=
  C10_theorem.2.2.2.2.2 "-5" 5 (by decide)

/-- Inserting into a list is a permutation of consing. -/
theorem insertLe_perm (le : α → α → Bool) (a : α) (l : List α) :
    List.Perm (insertLe le a l) (a :: l) := by
  induction l with
  | nil => exact List.Perm.refl _
  | cons b t ih =>
    unfold insertLe
    split
    · exact List.Perm.refl _
    · exact (ih.cons b).trans (List.Perm.swap a b t)

/-- The groupby key sort is a permutation. -/
theorem sortLe_perm (le : α → α → Bool) (l : List α) : List.Perm (sortLe le l) l := by
  induction l with
  | nil => exact List.Perm.refl _
  | cons a t ih => exact (insertLe_perm le a (sortLe le t)).trans (ih.cons a)

/-- Summing a per-key function over keys not containing `a` ignores an
`a`-branch. -/
theorem sum_map_ite_notMem (ks : List Mes) (a : Mes) (x : ℚ) (g : Mes → ℚ)
    (ha : a ∉ ks) :
    (ks.map (fun m => if a = m then x + g m else g m)).sum = (ks.map g).sum := by
  induction ks with
  | nil => rfl
  | cons k t ih =>
    have hak : a ≠ k := fun h => ha (h ▸ List.mem_cons_self k t)
    have hat : a ∉ t := fun h => ha (List.mem_cons_of_mem k h)
    simp only [List.map_cons, List.sum_cons, if_neg hak, ih hat]

/-- Summing a per-key function over deduplicated keys containing `a` counts
an `a`-branch exactly once. -/
theorem sum_map_ite_mem (ks : List Mes) (a : Mes) (x : ℚ) (g : Mes → ℚ)
    (hnd : ks.Nodup) (ha : a ∈ ks) :
    (ks.map (fun m => if a = m then x + g m else g m)).sum
      = x + (ks.map g).sum := by
  induction ks with
  | nil => cases ha
  | cons k t ih =>
    rcases List.mem_cons.mp ha with h | h
    · subst h
      have hat : a ∉ t := (List.nodup_cons.mp hnd).1
      simp only [List.map_cons, List.sum_cons, if_true, eq_self_iff_true,
        sum_map_ite_notMem t a x g hat]
      ring
    · have hak : a ≠ k := by
        intro hk
        exact (List.nodup_cons.mp hnd).1 (hk ▸ h)
      simp only [List.map_cons, List.sum_cons, if_neg hak,
        ih (List.nodup_cons.mp hnd).2 h]
      ring

/-- Partition identity: summing each group of a keyed list over a
duplicate-free covering key list gives the total sum. -/
theorem sum_grupos (ks : List Mes) (con : List (Mes × ℚ))
    (hnd : ks.Nodup) (hcov : ∀ c ∈ con, c.1 ∈ ks) :
    (ks.map (fun m =>
      ((con.filter (fun r => decide (r.1 = m))).map Prod.snd).sum)).sum
      = (con.map Prod.snd).sum := by
  induction con with
  | nil => simp
  | cons c t ih =>
    have hc : c.1 ∈ ks := hcov c (List.mem_cons_self c t)
    have ht : ∀ x ∈ t, x.1 ∈ ks := fun x hx => hcov x (List.mem_cons_of_mem c hx)
    have hsplit : ∀ m : Mes,
        ((c :: t).filter (fun r => decide (r.1 = m))).map Prod.snd
          = (if c.1 = m then [c.2] else [])
            ++ (t.filter (fun r => decide (r.1 = m))).map Prod.snd := by
      intro m
      by_cases h : c.1 = m
      · simp [List.filter_cons, h]
      · simp [List.filter_cons, h]
    calc (ks.map (fun m =>
            (((c :: t).filter (fun r => decide (r.1 = m))).map Prod.snd).sum)).sum
        = (ks.map (fun m =>
            if c.1 = m
            then c.2 + ((t.filter (fun r => decide (r.1 = m))).map Prod.snd).sum
            else ((t.filter (fun r => decide (r.1 = m))).map Prod.snd).sum)).sum := by
          congr 1
          refine List.map_congr_left (fun m _ => ?_)
          rw [hsplit m]
          by_cases h : c.1 = m <;> simp [h]
      _ = c.2 + (ks.map (fun m =>
            ((t.filter (fun r => decide (r.1 = m))).map Prod.snd).sum)).sum :=
          sum_map_ite_mem ks c.1 c.2 _ hnd hc
      _ = c.2 + (t.map Prod.snd).sum := by rw [ih ht]
      _ = ((c :: t).map Prod.snd).sum := by simp

/-- Unfolding lemma for the `Except` bind on a success value. -/
theorem except_bind_ok (x : α) (f : α → Except ε β) :
    (Except.ok x >>= f : Except ε β) = f x := rfl

/-- Unfolding lemma for the `Except` bind on an error. -/
theorem except_bind_err (e : ε) (f : α → Except ε β) :
    (Except.error e >>= f : Except ε β) = Except.error e := rfl

/-- Unfolding lemma for `pure` in `Except`. -/
theorem except_pure (x : α) : (pure x : Except ε α) = Except.ok x := rfl

/-- Unfolding lemma for `Except.map` on a success value. -/
theorem except_map_ok (f : α → β) (x : α) :
    Except.map f (Except.ok x : Except ε α) = Except.ok (f x) := rfl

/-- Unfolding lemma for `Except.map` on an error. -/
theorem except_map_err (f : α → β) (e : ε) :
    Except.map f (Except.error e : Except ε α) = Except.error e := rfl

/-- The month an undropped production label contributes (`none` for a label
whose three-letter prefix is not in the abbreviation map). -/
def mesEtiquetaOpt (label : String) : Option Mes :=
  match mes_ano_de_etiqueta label with
  | .ok om => om
  | .error _ => none

/-- A successful label-parsing pass computes `mesEtiquetaOpt` pointwise. -/
theorem produccion_con_mes_ok (l : List (String × ℚ)) :
    ∀ rows : List (Option Mes × ℚ), produccion_con_mes l = .ok rows →
    rows = l.map (fun c => (mesEtiquetaOpt c.1, c.2)) ∧
      ∀ c ∈ l, mes_ano_de_etiqueta c.1 = .ok (mesEtiquetaOpt c.1) := by
  induction l with
  | nil =>
    intro rows h
    simp only [produccion_con_mes, List.mapM_nil, except_pure,
      Except.ok.injEq] at h
    exact ⟨h.symm, by simp⟩
  | cons c t ih =>
    intro rows h
    simp only [produccion_con_mes, List.mapM_cons] at h ih
    cases hc : mes_ano_de_etiqueta c.1 with
    | error e =>
      rw [hc] at h
      simp only [except_map_err, except_bind_err] at h
      cases h
    | ok om =>
      rw [hc] at h
      simp only [except_map_ok, except_bind_ok] at h
      cases ht : t.mapM (fun c => (mes_ano_de_etiqueta c.1).map
          (fun om => (om, c.2))) with
      | error e => rw [ht] at h; simp only [except_bind_err] at h; cases h
      | ok rs =>
        rw [ht] at h
        simp only [except_bind_ok, except_pure, Except.ok.injEq] at h
        obtain ⟨hrs, hall⟩ := ih rs ht
        have hom : om = mesEtiquetaOpt c.1 := by
          unfold mesEtiquetaOpt
          rw [hc]
        constructor
        · rw [← h, hrs, hom, List.map_cons]
        · intro x hx
          rcases List.mem_cons.mp hx with hx | hx
          · subst hx; rw [hc, hom]
          · exact hall x hx

/-- On a successfully processed label, the parsed month is present exactly
when the three-letter prefix is in the abbreviation map. -/
theorem mes_etiqueta_isSome (lab : String) (om : Option Mes)
    (h : mes_ano_de_etiqueta lab = .ok om) :
    om.isSome = (MESES_MAP_ABR.lookup (⟨lab.data.take 3⟩ : String)).isSome := by
  unfold mes_ano_de_etiqueta at h
  cases hl : MESES_MAP_ABR.lookup (⟨lab.data.take 3⟩ : String) with
  | none =>
    rw [hl] at h
    simp only [Except.ok.injEq] at h
    rw [← h]
  | some m =>
    rw [hl] at h
    cases hy : parseYearStr ('2' :: '0' :: lab.data.drop 3) with
    | some y =>
      rw [hy] at h
      simp only [Except.ok.injEq] at h
      rw [← h]
      rfl
    | none => rw [hy] at h; cases h

/-- Dropping the null-month rows and summing equals filtering to the mapped
labels and summing. -/
theorem suma_filterMap_filter (l : List (String × ℚ))
    (h : ∀ c ∈ l, (mesEtiquetaOpt c.1).isSome
        = (MESES_MAP_ABR.lookup (⟨c.1.data.take 3⟩ : String)).isSome) :
    ((l.filterMap (fun c => (mesEtiquetaOpt c.1).map (fun m => (m, c.2)))).map
        Prod.snd).sum
      = ((l.filter (fun c =>
          (MESES_MAP_ABR.lookup (⟨c.1.data.take 3⟩ : String)).isSome)).map
        Prod.snd).sum := by
  induction l with
  | nil => rfl
  | cons c t ih =>
    have hc := h c (List.mem_cons_self c t)
    have ht := ih (fun x hx => h x (List.mem_cons_of_mem c hx))
    cases hm : mesEtiquetaOpt c.1 with
    | some m =>
      have hs : (MESES_MAP_ABR.lookup (⟨c.1.data.take 3⟩ : String)).isSome
          = true := by rw [← hc, hm]; rfl
      simp [List.filterMap_cons, List.filter_cons, hm, hs, ht]
    | none =>
      have hs : (MESES_MAP_ABR.lookup (⟨c.1.data.take 3⟩ : String)).isSome
          = false := by rw [← hc, hm]; rfl
      simp [List.filterMap_cons, List.filter_cons, hm, hs, ht]

/-- C8: whenever the production resolver completes, the sum of its monthly
totals equals the sum of the successfully-parsed melted quantity values,
excluding exactly the rows dropped for a quantity parse failure (already
absent from `produccion_valores`) or an unmapped month label. -/
theorem C8_theorem (prod : List ProdRow) (out : List (Mes × ℚ))
    (hok : df_produccion_mensual prod = .ok out) :
    (out.map Prod.snd).sum =
      (((produccion_valores prod).filter (fun c =>
          (MESES_MAP_ABR.lookup (⟨c.1.data.take 3⟩ : String)).isSome)).map
        Prod.snd).sum := by
  unfold df_produccion_mensual at hok
  cases hrows : produccion_con_mes (produccion_valores prod) with
  | error e => rw [hrows, except_bind_err] at hok; cases hok
  | ok rows =>
    rw [hrows, except_bind_ok, except_pure] at hok
    simp only [Except.ok.injEq] at hok
    obtain ⟨hrows_eq, hsucc⟩ := produccion_con_mes_ok _ rows hrows
    have hcon : rows.filterMap (fun r => r.1.map (fun m => (m, r.2)))
        = (produccion_valores prod).filterMap
            (fun c => (mesEtiquetaOpt c.1).map (fun m => (m, c.2))) := by
      rw [hrows_eq, List.filterMap_map]
      rfl
    set con := (produccion_valores prod).filterMap
        (fun c => (mesEtiquetaOpt c.1).map (fun m => (m, c.2))) with hcon_def
    have hperm : List.Perm
        (sortLe (fun a b => decide (a ≤ b)) (con.map Prod.fst).dedup)
        (con.map Prod.fst).dedup := sortLe_perm _ _
    have hnd : (sortLe (fun a b => decide (a ≤ b))
        (con.map Prod.fst).dedup).Nodup :=
      hperm.nodup_iff.mpr (List.nodup_dedup _)
    have hcov : ∀ c ∈ con, c.1 ∈
        sortLe (fun a b => decide (a ≤ b)) (con.map Prod.fst).dedup := by
      intro c hcmem
      rw [hperm.mem_iff, List.mem_dedup]
      exact List.mem_map_of_mem Prod.fst hcmem
    have hsum := sum_grupos
      (sortLe (fun a b => decide (a ≤ b)) (con.map Prod.fst).dedup) con hnd hcov
    rw [← hok, hcon]
    rw [List.map_map]
    have hcomp : (Prod.snd ∘ fun m =>
        (m, ((con.filter (fun r => decide (r.1 = m))).map Prod.snd).sum))
        = fun m => ((con.filter (fun r => decide (r.1 = m))).map Prod.snd).sum :=
      rfl
    rw [hcomp, hsum]
    exact suma_filterMap_filter (produccion_valores prod)
      (fun c hcmem => mes_etiqueta_isSome c.1 _ (hsucc c hcmem))

/-- The example wide production table from the specification: one Manzana row
with `ene07 = "1.234,5"` and `feb07 = "-"`. -/
def prodEj : List ProdRow :=
  [⟨"Manzana", [("ene07", "1.234,5"), ("feb07", "-")]⟩]

/-- The monthly totals the example production table resolves to. -/
def prodMensualEj : List (Mes × ℚ) := [(24084, 2469/2), (24085, 0)]

/-- C8, witness: the conservation theorem discharged on the specification's
own example values. -/
theorem C8_witness :
    df_produccion_mensual prodEj = .ok prodMensualEj ∧
    (prodMensualEj.map Prod.snd).sum =
      (((produccion_valores prodEj).filter (fun c =>
          (MESES_MAP_ABR.lookup (⟨c.1.data.take 3⟩ : String)).isSome)).map
        Prod.snd).sum :=
  ⟨rfl, C8_theorem prodEj prodMensualEj rfl⟩

/-- The comparison `charsLe` is total. -/
theorem charsLe_total : ∀ x y : List Char, charsLe x y = true ∨ charsLe y x = true
  | [], _ => Or.inl rfl
  | _ :: _, [] => Or.inr rfl
  | a :: as, b :: bs => by
    by_cases hab : a = b
    · subst hab
      rcases charsLe_total as bs with h | h
      · exact Or.inl (by simp [charsLe, h])
      · exact Or.inr (by simp [charsLe, h])
    · rcases lt_trichotomy a b with h | h | h
      · exact Or.inl (by simp [charsLe, hab, h])
      · exact absurd h hab
      · have hba : b ≠ a := fun hh => hab hh.symm
        exact Or.inr (by simp [charsLe, hba, h])

/-- The comparison `charsLe` is transitive. -/
theorem charsLe_trans : ∀ x y z : List Char,
    charsLe x y = true → charsLe y z = true → charsLe x z = true
  | [], _, _ => fun _ _ => rfl
  | a :: as, [], _ => fun h _ => by cases h
  | a :: as, b :: bs, [] => fun _ h => by cases h
  | a :: as, b :: bs, c :: cs => by
    intro hxy hyz
    by_cases hab : a = b <;> by_cases hbc : b = c
    · subst hab; subst hbc
      simp only [charsLe, if_pos rfl] at hxy hyz ⊢
      exact charsLe_trans as bs cs hxy hyz
    · subst hab
      simp only [charsLe, if_pos rfl, if_neg hbc] at hyz ⊢
      exact hyz
    · subst hbc
      simp only [charsLe, if_pos rfl, if_neg hab] at hxy ⊢
      exact hxy
    · simp only [charsLe, if_neg hab, if_neg hbc, decide_eq_true_eq] at hxy hyz
      by_cases hac : a = c
      · subst hac; exact absurd (lt_trans hxy hyz) (lt_irrefl a)
      · simp only [charsLe, if_neg hac, decide_eq_true_eq]
        exact lt_trans hxy hyz

/-- Unfolding of the `(Mes_año, Departamento)` lexicographic order. -/
theorem lexMesDep_iff (a b : Mes × String) :
    lexMesDep a b = true ↔
      a.1 < b.1 ∨ (a.1 = b.1 ∧ charsLe a.2.data b.2.data = true) := by
  simp [lexMesDep]

/-- The group-key order is total. -/
theorem lexMesDep_total (a b : Mes × String) :
    lexMesDep a b = true ∨ lexMesDep b a = true := by
  rcases lt_trichotomy a.1 b.1 with h | h | h
  · exact Or.inl ((lexMesDep_iff a b).mpr (Or.inl h))
  · rcases charsLe_total a.2.data b.2.data with hc | hc
    · exact Or.inl ((lexMesDep_iff a b).mpr (Or.inr ⟨h, hc⟩))
    · exact Or.inr ((lexMesDep_iff b a).mpr (Or.inr ⟨h.symm, hc⟩))
  · exact Or.inr ((lexMesDep_iff b a).mpr (Or.inl h))

/-- The group-key order is transitive. -/
theorem lexMesDep_trans (a b c : Mes × String)
    (hab : lexMesDep a b = true) (hbc : lexMesDep b c = true) :
    lexMesDep a c = true := by
  rcases (lexMesDep_iff a b).mp hab with h1 | ⟨h1, hc1⟩ <;>
    rcases (lexMesDep_iff b c).mp hbc with h2 | ⟨h2, hc2⟩
  · exact (lexMesDep_iff a c).mpr (Or.inl (lt_trans h1 h2))
  · exact (lexMesDep_iff a c).mpr (Or.inl (h2 ▸ h1))
  · exact (lexMesDep_iff a c).mpr (Or.inl (h1 ▸ h2))
  · exact (lexMesDep_iff a c).mpr
      (Or.inr ⟨h1.trans h2, charsLe_trans _ _ _ hc1 hc2⟩)

/-- Inserting into a sorted list keeps it sorted (for a total transitive
comparison). -/
theorem insertLe_pairwise (le : α → α → Bool)
    (htot : ∀ a b, le a b = true ∨ le b a = true)
    (htrans : ∀ a b c, le a b = true → le b c = true → le a c = true)
    (a : α) (l : List α) (hl : l.Pairwise (fun x y => le x y = true)) :
    (insertLe le a l).Pairwise (fun x y => le x y = true) := by
  induction l with
  | nil => simp [insertLe]
  | cons b t ih =>
    have hl2 := List.pairwise_cons.mp hl
    unfold insertLe
    by_cases hab : le a b = true
    · rw [if_pos hab]
      refine List.pairwise_cons.mpr ⟨?_, hl⟩
      intro x hx
      rcases List.mem_cons.mp hx with h | h
      · subst h; exact hab
      · exact htrans a b x hab (hl2.1 x h)
    · rw [if_neg hab]
      have hba : le b a = true := (htot a b).resolve_left hab
      refine List.pairwise_cons.mpr ⟨?_, ih hl2.2⟩
      intro x hx
      have hx2 : x = a ∨ x ∈ t :=
        List.mem_cons.mp ((insertLe_perm le a t).mem_iff.mp hx)
      rcases hx2 with h | h
      · subst h; exact hba
      · exact hl2.1 x h

/-- The groupby key sort returns a sorted list. -/
theorem sortLe_pairwise (le : α → α → Bool)
    (htot : ∀ a b, le a b = true ∨ le b a = true)
    (htrans : ∀ a b c, le a b = true → le b c = true → le a c = true)
    (l : List α) :
    (sortLe le l).Pairwise (fun x y => le x y = true) := by
  induction l with
  | nil => exact List.Pairwise.nil
  | cons a t ih => exact insertLe_pairwise le htot htrans a (sortLe le t) ih

/-- C5, amended: the climate-derived monthly base is sorted by
`(month, region)` — the by-product of the groupby key sort — for every input;
the counterexample above shows the rows the production/price outer joins
append need not respect this order, so the final view is not sorted. -/
theorem C5_theorem (temp : List TempRow) (hum : List HumRow)
    (precip : List PrecipRow) (est : List EstacionRow) :
    ((df_clima_mensual temp hum precip est).map
        (fun r => ((r.mes_ano, r.departamento) : Mes × String))).Pairwise
      (fun a b => lexMesDep a b = true) := by
  unfold df_clima_mensual
  rw [List.map_map]
  have hmaps : ((fun r : ClimaMensualRow => ((r.mes_ano, r.departamento) : Mes × String)) ∘
      (fun k : Mes × String =>
        (⟨k.1, k.2,
          round1 (psum (((clima_enriquecido (tempObs temp) (humObs hum) (precipObs precip) est).filter
            (fun r => decide (climaClave r = some k))).map ClimaH3.precipitacion_mm)),
          (pmean (((clima_enriquecido (tempObs temp) (humObs hum) (precipObs precip) est).filter
            (fun r => decide (climaClave r = some k))).map ClimaH3.temperatura_c)).map round1,
          (pmean (((clima_enriquecido (tempObs temp) (humObs hum) (precipObs precip) est).filter
            (fun r => decide (climaClave r = some k))).map ClimaH3.humedad_pje)).map round1,
          origen_fuente_clima_combinado⟩ : ClimaMensualRow)))
      = fun k : Mes × String => k := by
    funext k
    rfl
  rw [hmaps, show (fun k : Mes × String => k) = id from rfl, List.map_id]
  exact sortLe_pairwise lexMesDep lexMesDep_total lexMesDep_trans _

/-- Inversion of a successful mediator run: all seven sources loaded, both
fallible resolvers succeeded, and the view is the fused projection. -/
theorem mediador_ok_vista (s : Snapshot) (rows : List VistaRow)
    (hok : mediador s = .ok (.vista rows)) :
    ∃ t hu p est prodL prodM precL estabL precioM,
      cargado s.temperatura = some t ∧ cargado s.humedad = some hu ∧
      cargado s.precipitaciones = some p ∧
      cargadoEstaciones s.estaciones = some est ∧
      cargado s.produccion = some prodL ∧
      df_produccion_mensual prodL = .ok prodM ∧
      cargado s.precios = some precL ∧
      cargado s.establecimientos = some estabL ∧
      df_precios_mensual precL estabL = .ok precioM ∧
      rows = vista_global_final
        (fusion2 (fusion1 (df_clima_mensual t hu p est) prodM) precioM) := by
  unfold mediador at hok
  cases hta : todasAusentes s with
  | true => rw [hta] at hok; simp [except_pure] at hok
  | false =>
  rw [hta] at hok
  simp only [Bool.false_eq_true, if_false] at hok
  cases hT : cargado s.temperatura with
  | none => rw [hT] at hok; simp [accede, except_bind_err] at hok
  | some t =>
  rw [hT] at hok
  simp only [accede, except_bind_ok] at hok
  cases hH : cargado s.humedad with
  | none => rw [hH] at hok; simp [accede, except_bind_err] at hok
  | some hu =>
  rw [hH] at hok
  simp only [accede, except_bind_ok] at hok
  cases hP : cargado s.precipitaciones with
  | none => rw [hP] at hok; simp [accede, except_bind_err] at hok
  | some p =>
  rw [hP] at hok
  simp only [accede, except_bind_ok] at hok
  cases hE : cargadoEstaciones s.estaciones with
  | none => rw [hE] at hok; simp [accede, except_bind_err] at hok
  | some est =>
  rw [hE] at hok
  simp only [accede, except_bind_ok] at hok
  cases hPr : cargado s.produccion with
  | none => rw [hPr] at hok; simp [accede, except_bind_err] at hok
  | some prodL =>
  rw [hPr] at hok
  simp only [accede, except_bind_ok] at hok
  cases hPM : df_produccion_mensual prodL with
  | error e => rw [hPM] at hok; simp [except_bind_err] at hok
  | ok prodM =>
  rw [hPM] at hok
  simp only [except_bind_ok] at hok
  cases hPc : cargado s.precios with
  | none => rw [hPc] at hok; simp [accede, except_bind_err] at hok
  | some precL =>
  rw [hPc] at hok
  simp only [accede, except_bind_ok] at hok
  cases hEs : cargado s.establecimientos with
  | none => rw [hEs] at hok; simp [accede, except_bind_err] at hok
  | some estabL =>
  rw [hEs] at hok
  simp only [accede, except_bind_ok] at hok
  cases hQM : df_precios_mensual precL estabL with
  | error e => rw [hQM] at hok; simp [except_bind_err] at hok
  | ok precioM =>
  rw [hQM] at hok
  simp only [except_bind_ok, except_pure] at hok
  refine ⟨t, hu, p, est, prodL, prodM, precL, estabL, precioM,
    rfl, rfl, rfl, rfl, rfl, hPM, rfl, rfl, hQM, ?_⟩
  cases hok
  rfl

/-- Any row of an outer merge is built by `mk` from a left row or by `mkR`
from a right row. -/
theorem outerMerge_mem [DecidableEq κ] (ka : α → κ) (kb : β → κ)
    (mk : α → Option β → γ) (mkR : β → γ) (ls : List α) (rs : List β)
    (x : γ) (hx : x ∈ outerMerge ka kb mk mkR ls rs) :
    (∃ l ∈ ls, ∃ ob : Option β, x = mk l ob) ∨ ∃ r ∈ rs, x = mkR r := by
  unfold outerMerge at hx
  rcases List.mem_append.mp hx with h | h
  · left
    rcases List.mem_flatMap.mp h with ⟨l, hl, hxl⟩
    refine ⟨l, hl, ?_⟩
    rcases hms : rs.filter (fun r => decide (kb r = ka l)) with _ | ⟨m, ms⟩
    · rw [hms] at hxl
      simp only [List.mem_singleton] at hxl
      exact ⟨none, hxl⟩
    · rw [hms] at hxl
      rcases List.mem_map.mp hxl with ⟨r, _, hr⟩
      exact ⟨some r, hr.symm⟩
  · right
    rcases List.mem_map.mp h with ⟨r, hr, hxr⟩
    exact ⟨r, (List.mem_filter.mp hr).1, hxr.symm⟩

/-- Any row of an inner merge is built by `mk` from a left and a right row. -/
theorem innerMerge_mem [DecidableEq κ] (ka : α → κ) (kb : β → κ)
    (mk : α → β → γ) (ls : List α) (rs : List β)
    (x : γ) (hx : x ∈ innerMerge ka kb mk ls rs) :
    ∃ l ∈ ls, ∃ r ∈ rs, x = mk l r := by
  unfold innerMerge at hx
  rcases List.mem_flatMap.mp hx with ⟨l, hl, hxl⟩
  rcases List.mem_map.mp hxl with ⟨r, hr, hxr⟩
  exact ⟨l, hl, r, (List.mem_filter.mp hr).1, hxr.symm⟩

/-- Every station the scraper returns lies in one of the 19 regions. -/
theorem scraper_dep_valido (raw : List RawEstacion) (e : EstacionRow)
    (he : e ∈ wrapper_web_scraping_estaciones raw) :
    e.departamento ∈ DEPARTAMENTOS_URUGUAY := by
  unfold wrapper_web_scraping_estaciones at he
  rcases List.mem_map.mp he with ⟨r, hr, hre⟩
  have hc := (List.mem_filter.mp hr).2
  rw [← hre]
  exact List.mem_of_elem_eq_true hc

/-- Every monthly climate row takes its region from some directory row. -/
theorem clima_mensual_dep (temp : List TempRow) (hum : List HumRow)
    (precip : List PrecipRow) (est : List EstacionRow) (c : ClimaMensualRow)
    (hc : c ∈ df_clima_mensual temp hum precip est) :
    ∃ e ∈ est, c.departamento = e.departamento := by
  unfold df_clima_mensual at hc
  rcases List.mem_map.mp hc with ⟨k, hk, hkc⟩
  have hdep : c.departamento = k.2 := by rw [← hkc]
  have hk2 : k ∈ (List.filterMap climaClave
      (clima_enriquecido (tempObs temp) (humObs hum) (precipObs precip) est)).dedup :=
    (sortLe_perm lexMesDep _).mem_iff.mp hk
  rw [List.mem_dedup] at hk2
  rcases List.mem_filterMap.mp hk2 with ⟨r, hr, hrk⟩
  have hrdep : k.2 = r.departamento := by
    unfold climaClave at hrk
    rcases hf : r.fecha with _ | f
    · rw [hf] at hrk; cases hrk
    · rw [hf] at hrk
      simp only [Option.map_some', Option.some.injEq] at hrk
      rw [← hrk]
  rcases innerMerge_mem _ _ _ _ _ r hr with ⟨l, _, e, he, hre⟩
  refine ⟨e, he, ?_⟩
  rw [hdep, hrdep, hre]

/-- The second component of a successful price-date parsing pass is the
original merged row. -/
theorem precios_fechados_ok (merged : List PrecioMerged) :
    ∀ rows : List PrecioFechado, precios_fechados merged = .ok rows →
    ∀ r ∈ rows, ∃ q ∈ merged, r.depto = q.depto := by
  unfold precios_fechados
  induction merged with
  | nil =>
    intro rows h r hr
    simp only [List.mapM_nil, except_pure, except_bind_ok, List.filterMap_nil,
      Except.ok.injEq] at h
    rw [← h] at hr
    exact absurd hr (List.not_mem_nil r)
  | cons q t ih =>
    intro rows h r hr
    simp only [List.mapM_cons] at h
    cases hq : to_datetime_mixed q.fecha with
    | error e =>
      rw [hq] at h
      simp only [except_map_err, except_bind_err] at h
      cases h
    | ok of =>
      rw [hq] at h
      simp only [except_map_ok, except_bind_ok] at h
      cases ht : t.mapM (fun r => (to_datetime_mixed r.fecha).map
          (fun of => (of, r))) with
      | error e => rw [ht] at h; simp only [except_bind_err] at h; cases h
      | ok parsed =>
        rw [ht] at h
        simp only [except_bind_ok, except_pure, Except.ok.injEq] at h
        rw [← h] at hr
        simp only [List.filterMap_cons] at hr
        have htail : ∀ x ∈ parsed.filterMap (fun p => p.1.map
            (fun f => (⟨f.mes, p.2.precio_val, p.2.iddepto, p.2.depto⟩ :
              PrecioFechado))),
            ∃ q2 ∈ t, x.depto = q2.depto := by
          intro x hx
          exact ih (parsed.filterMap (fun p => p.1.map
              (fun f => (⟨f.mes, p.2.precio_val, p.2.iddepto, p.2.depto⟩ :
                PrecioFechado))))
            (by rw [ht, except_bind_ok, except_pure]) x hx
        cases hof : of with
        | none =>
          rw [hof] at hr
          simp only [Option.map_none'] at hr
          rcases htail r hr with ⟨q2, hq2, hr2⟩
          exact ⟨q2, List.mem_cons_of_mem q hq2, hr2⟩
        | some f =>
          rw [hof] at hr
          simp only [Option.map_some'] at hr
          rcases List.mem_cons.mp hr with h1 | h1
          · subst h1
            exact ⟨q, List.mem_cons_self q t, rfl⟩
          · rcases htail r h1 with ⟨q2, hq2, hr2⟩
            exact ⟨q2, List.mem_cons_of_mem q hq2, hr2⟩

/-- Every monthly price row takes its region from some establishment row. -/
theorem precios_mensual_dep (precios : List PrecioRow) (estab : List EstabRow)
    (out : List PrecioMensualRow) (hok : df_precios_mensual precios estab = .ok out)
    (p : PrecioMensualRow) (hp : p ∈ out) :
    ∃ e ∈ estab, p.departamento = e.depto := by
  unfold df_precios_mensual at hok
  cases hrows : precios_fechados (precios_merged precios estab) with
  | error e => rw [hrows, except_bind_err] at hok; cases hok
  | ok rows =>
    rw [hrows, except_bind_ok, except_pure] at hok
    simp only [Except.ok.injEq] at hok
    rw [← hok] at hp
    rcases List.mem_map.mp hp with ⟨k, hk, hkp⟩
    have hdep : p.departamento = k.2.1 := by rw [← hkp]
    have hk2 : k ∈ (rows.map precioClave).dedup :=
      (sortLe_perm lexPrecio _).mem_iff.mp hk
    rw [List.mem_dedup] at hk2
    rcases List.mem_map.mp hk2 with ⟨r, hr, hrk⟩
    have hrdep : k.2.1 = r.depto := by
      unfold precioClave at hrk
      rw [← hrk]
    rcases precios_fechados_ok _ rows hrows r hr with ⟨q, hq, hrq⟩
    rcases innerMerge_mem _ _ _ _ _ q hq with ⟨l, _, e, he, hqe⟩
    refine ⟨e, he, ?_⟩
    rw [hdep, hrdep, hrq, hqe]

/-- A loaded station directory is the scraper's output on some raw listing. -/
theorem cargadoEstaciones_some (o : Option (List RawEstacion))
    (est : List EstacionRow) (h : cargadoEstaciones o = some est) :
    ∃ raw, o = some raw ∧ est = wrapper_web_scraping_estaciones raw := by
  cases o with
  | none => cases h
  | some raw =>
    refine ⟨raw, rfl, ?_⟩
    unfold cargadoEstaciones cargado at h
    simp only [Option.map_some'] at h
    by_cases he : (wrapper_web_scraping_estaciones raw).isEmpty
    · rw [if_pos he] at h; cases h
    · rw [if_neg he] at h
      exact (Option.some.injEq _ _ ▸ h).symm

/-- C2, amended: every region value of the final view is either null, a
member of the 19-region set (when the climate branch contributed it — the
scraper filters the directory), or copied verbatim from the `depto` column of
the loaded establishment table (the price branch performs no validation). -/
theorem C2_theorem (s : Snapshot) (rows : List VistaRow) (r : VistaRow)
    (d : String) (hok : mediador s = .ok (.vista rows)) (hr : r ∈ rows)
    (hd : r.departamento = some d) :
    d ∈ DEPARTAMENTOS_URUGUAY ∨
      ∃ l, cargado s.establecimientos = some l ∧ ∃ e ∈ l, e.depto = d := by
  rcases mediador_ok_vista s rows hok with
    ⟨t, hu, p, est, prodL, prodM, precL, estabL, precioM,
     hT, hH, hP, hE, hPr, hPM, hPc, hEs, hQM, hrows⟩
  subst hrows
  rcases List.mem_map.mp hr with ⟨g2, hg2, hg2r⟩
  have hrd : r.departamento = g2.departamento := by rw [← hg2r]
  rcases outerMerge_mem _ _ _ _ _ _ g2 hg2 with
    ⟨g1, hg1, ob, hmk⟩ | ⟨pm, hpm, hmkR⟩
  · have hd1 : g2.departamento = g1.departamento := by rw [hmk]
    rcases outerMerge_mem _ _ _ _ _ _ g1 hg1 with
      ⟨c, hc, ob2, hmk2⟩ | ⟨pr2, hpr2, hmkR2⟩
    · have hd2 : g1.departamento = some c.departamento := by rw [hmk2]
      left
      have hdc : d = c.departamento := by
        have : some d = some c.departamento := by
          rw [← hd, hrd, hd1, hd2]
        exact Option.some.inj this
      rcases cargadoEstaciones_some _ _ hE with ⟨raw, _, hraw⟩
      rcases clima_mensual_dep t hu p est c hc with ⟨e, he, hce⟩
      rw [hdc, hce]
      exact scraper_dep_valido raw e (hraw ▸ he)
    · have hd2 : g1.departamento = none := by rw [hmkR2]
      rw [hd, hd1, hd2] at hrd
      cases hrd
  · right
    have hd1 : g2.departamento = some pm.departamento := by rw [hmkR]
    have hdp : d = pm.departamento := by
      have : some d = some pm.departamento := by rw [← hd, hrd, hd1]
      exact Option.some.inj this
    rcases precios_mensual_dep precL estabL precioM hQM pm hpm with ⟨e, he, hpe⟩
    exact ⟨estabL, hEs, e, he, by rw [← hpe, hdp]⟩

/-- The two rows the mediator produces on `snapDeptoExtra`. -/
def vistaDeptoExtra : List VistaRow :=
  [⟨24084, some "Canelones", some 3, some 20, some 50, some 1, none⟩,
   ⟨24084, some "Buenos Aires", none, none, none, none, some 10⟩]

/-- The price-only row of that view. -/
def filaBuenosAires : VistaRow :=
  ⟨24084, some "Buenos Aires", none, none, none, none, some 10⟩

/-- C2, witness for the amended theorem: on `snapDeptoExtra` the out-of-set
region "Buenos Aires" is indeed traceable to the establishment table. -/
theorem C2_witness :
    mediador snapDeptoExtra = .ok (.vista vistaDeptoExtra) ∧
    filaBuenosAires ∈ vistaDeptoExtra ∧
    ("Buenos Aires" ∈ DEPARTAMENTOS_URUGUAY ∨
      ∃ l, cargado snapDeptoExtra.establecimientos = some l ∧
        ∃ e ∈ l, e.depto = "Buenos Aires") :=
  ⟨rfl, by decide,
    C2_theorem snapDeptoExtra vistaDeptoExtra filaBuenosAires "Buenos Aires"
      rfl (by decide) rfl⟩

/-- Keyed lookup in a table: the first row carrying the key. -/
def buscar [DecidableEq κ] (kb : β → κ) (rs : List β) (k : κ) : Option β :=
  rs.find? (fun r => decide (kb r = k))

/-- A found row is a member with the right key. -/
theorem buscar_mem [DecidableEq κ] (kb : β → κ) (rs : List β) (k : κ) (x : β)
    (h : buscar kb rs k = some x) : x ∈ rs ∧ kb x = k := by
  unfold buscar at h
  refine ⟨List.mem_of_find?_eq_some h, ?_⟩
  have := List.find?_some h
  simpa using this

/-- Lookup misses exactly when no row carries the key. -/
theorem buscar_eq_none [DecidableEq κ] (kb : β → κ) (rs : List β) (k : κ) :
    buscar kb rs k = none ↔ ∀ x ∈ rs, kb x ≠ k := by
  unfold buscar
  rw [List.find?_eq_none]
  simp

/-- In a table with duplicate-free keys, looking up a member's key finds that
member. -/
theorem buscar_self [DecidableEq κ] (kb : β → κ) (rs : List β) (x : β)
    (hnd : (rs.map kb).Nodup) (hx : x ∈ rs) : buscar kb rs (kb x) = some x := by
  induction rs with
  | nil => cases hx
  | cons r t ih =>
    rw [List.map_cons] at hnd
    have hnd2 := List.nodup_cons.mp hnd
    unfold buscar
    rcases List.mem_cons.mp hx with h | h
    · subst h
      rw [List.find?_cons]
      have hd : decide (kb x = kb x) = true := by simp
      rw [hd]
    · have hne : decide (kb r = kb x) = false := by
        simp only [decide_eq_false_iff_not]
        intro he
        exact hnd2.1 (he ▸ List.mem_map_of_mem kb h)
      rw [List.find?_cons, hne]
      exact ih hnd2.2 h

/-- Erasing a row with a different key does not change a lookup. -/
theorem buscar_erase [DecidableEq κ] [DecidableEq β] (kb : β → κ)
    (rs : List β) (x0 : β) (k : κ) (hne : kb x0 ≠ k) :
    buscar kb (rs.erase x0) k = buscar kb rs k := by
  induction rs with
  | nil => rfl
  | cons r t ih =>
    by_cases hr : r = x0
    · subst hr
      rw [List.erase_cons_head]
      unfold buscar
      rw [List.find?_cons]
      have hd : decide (kb r = k) = false := by
        simp only [decide_eq_false_iff_not]
        exact hne
      rw [hd]
    · rw [List.erase_cons_tail (by simpa using hr)]
      unfold buscar at ih ⊢
      rw [List.find?_cons, List.find?_cons]
      cases hd : decide (kb r = k) with
      | true => rfl
      | false => exact ih

/-- Filtering a duplicate-free-keyed table down to one key yields the lookup
result. -/
theorem filter_key_eq_buscar [DecidableEq κ] (kb : β → κ) (rs : List β) (k : κ)
    (hnd : (rs.map kb).Nodup) :
    rs.filter (fun r => decide (kb r = k)) = (buscar kb rs k).toList := by
  induction rs with
  | nil => rfl
  | cons r t ih =>
    rw [List.map_cons] at hnd
    have hnd2 := List.nodup_cons.mp hnd
    by_cases hr : kb r = k
    · rw [List.filter_cons_of_pos (by simpa using hr)]
      have hemp : t.filter (fun r => decide (kb r = k)) = [] := by
        rw [List.filter_eq_nil_iff]
        intro a ha
        simp only [decide_eq_true_eq]
        intro hk
        exact hnd2.1 (hr ▸ hk ▸ List.mem_map_of_mem kb ha)
      rw [hemp]
      unfold buscar
      rw [List.find?_cons]
      have hd : decide (kb r = k) = true := by simpa using hr
      rw [hd]
      rfl
    · rw [List.filter_cons_of_neg (by simpa using hr)]
      rw [ih hnd2.2]
      unfold buscar
      rw [List.find?_cons]
      have hd : decide (kb r = k) = false := by simpa using hr
      rw [hd]

/-- An outer merge against a duplicate-free-keyed right table pairs each left
row with the lookup of its key. -/
theorem outerMerge_eq [DecidableEq κ] (ka : α → κ) (kb : β → κ)
    (mk : α → Option β → γ) (mkR : β → γ) (ls : List α) (rs : List β)
    (hnd : (rs.map kb).Nodup) :
    outerMerge ka kb mk mkR ls rs
      = ls.map (fun l => mk l (buscar kb rs (ka l)))
        ++ (rs.filter (fun r => !(ls.any (fun l => decide (ka l = kb r))))).map mkR := by
  unfold outerMerge
  congr 1
  induction ls with
  | nil => rfl
  | cons l t ih =>
    rw [List.flatMap_cons, List.map_cons, filter_key_eq_buscar kb rs (ka l) hnd]
    cases buscar kb rs (ka l) with
    | none => rw [ih]; rfl
    | some x => rw [ih]; rfl

/-- An inner merge against a duplicate-free-keyed right table maps each left
row through the lookup of its key. -/
theorem innerMerge_eq [DecidableEq κ] (ka : α → κ) (kb : β → κ)
    (mk : α → β → γ) (ls : List α) (rs : List β)
    (hnd : (rs.map kb).Nodup) :
    innerMerge ka kb mk ls rs
      = ls.filterMap (fun l => (buscar kb rs (ka l)).map (mk l)) := by
  unfold innerMerge
  induction ls with
  | nil => rfl
  | cons l t ih =>
    rw [List.flatMap_cons, List.filterMap_cons, filter_key_eq_buscar kb rs (ka l) hnd]
    cases buscar kb rs (ka l) with
    | none => rw [ih]; rfl
    | some x => rw [ih]; rfl

/-- The metric value a table attaches to a `(fecha, estacion_id)` key. -/
def lookVal (xs : List Obs) (key : Option Fecha × String) : Option ℚ :=
  (buscar obsKey xs key).bind Obs.val

/-- The region of a station according to the directory. -/
def estDirLookup (est : List EstacionRow) (id : String) : Option String :=
  (buscar EstacionRow.estacion_id est id).map EstacionRow.departamento

/-- The claim's reading selection: the station-hour readings of one metric
table mapped to the month `m` and region `d` (timestamp truncates to `m`, and
the station directory maps the station to `d`). -/
def lecturas (xs : List Obs) (est : List EstacionRow) (m : Mes) (d : String) :
    List (Option ℚ) :=
  (xs.filter (fun o => decide (o.fecha.map Fecha.mes = some m) &&
    decide (estDirLookup est o.estacion_id = some d))).map Obs.val

/-- Group membership of a merge key for the group `(m, d)`. -/
def grpB (est : List EstacionRow) (m : Mes) (d : String)
    (key : Option Fecha × String) : Bool :=
  decide (key.1.map Fecha.mes = some m) &&
    decide (estDirLookup est key.2 = some d)

/-- The keys of the first climate merge, in merge order. -/
def claves1 (T H : List Obs) : List (Option Fecha × String) :=
  T.map obsKey ++ (H.filter (fun h =>
    !(T.any (fun t => decide (obsKey t = obsKey h))))).map obsKey

/-- The keys of the hourly climate table, in merge order. -/
def clavesHorario (T H P : List Obs) : List (Option Fecha × String) :=
  claves1 T H ++ (P.filter (fun p => !((clima_merge1 T H).any
    (fun l => decide ((l.fecha, l.estacion_id) = obsKey p))))).map obsKey

/-- The row of the first merge at a key, expressed through lookups. -/
def filaH1 (T H : List Obs) (key : Option Fecha × String) : ClimaH1 :=
  ⟨key.1, key.2, lookVal T key, lookVal H key⟩

/-- The row of the hourly climate table at a key. -/
def filaH2 (T H P : List Obs) (key : Option Fecha × String) : ClimaH2 :=
  ⟨key.1, key.2, lookVal T key, lookVal H key, lookVal P key⟩

/-- Under duplicate-free keys, the first climate merge is the per-key lookup
table over its key list. -/
theorem clima_merge1_eq (T H : List Obs)
    (h1 : (T.map obsKey).Nodup) (h2 : (H.map obsKey).Nodup) :
    clima_merge1 T H = (claves1 T H).map (filaH1 T H) := by
  unfold clima_merge1
  rw [outerMerge_eq _ _ _ _ _ _ h2]
  unfold claves1
  rw [List.map_append, List.map_map, List.map_map]
  congr 1
  · refine List.map_congr_left (fun t ht => ?_)
    show _ = filaH1 T H (obsKey t)
    unfold filaH1 lookVal
    rw [buscar_self obsKey T t h1 ht]
    rfl
  · refine List.map_congr_left (fun h hh => ?_)
    have hmem := List.mem_filter.mp hh
    have hnoT : ∀ x ∈ T, obsKey x ≠ obsKey h := by
      have h2b := hmem.2
      simp only [Bool.not_eq_eq_eq_not, Bool.not_true, List.any_eq_false,
        decide_eq_true_eq] at h2b
      exact h2b
    show _ = filaH1 T H (obsKey h)
    unfold filaH1 lookVal
    rw [(buscar_eq_none obsKey T (obsKey h)).mpr hnoT,
      buscar_self obsKey H h h2 hmem.1]
    rfl

/-- Temperature keys are merge-1 keys. -/
theorem mem_claves1_T (T H : List Obs) (t : Obs) (ht : t ∈ T) :
    obsKey t ∈ claves1 T H :=
  List.mem_append_left _ (List.mem_map_of_mem obsKey ht)

/-- Humidity keys are merge-1 keys. -/
theorem mem_claves1_H (T H : List Obs) (h : Obs) (hh : h ∈ H) :
    obsKey h ∈ claves1 T H := by
  by_cases hmat : ∃ t ∈ T, obsKey t = obsKey h
  · rcases hmat with ⟨t, ht, hth⟩
    exact hth ▸ mem_claves1_T T H t ht
  · refine List.mem_append_right _ (List.mem_map_of_mem obsKey ?_)
    rw [List.mem_filter]
    refine ⟨hh, ?_⟩
    simp only [Bool.not_eq_eq_eq_not, Bool.not_true, List.any_eq_false,
      decide_eq_true_eq]
    intro t ht hth
    exact hmat ⟨t, ht, hth⟩

/-- Membership in the merge-1 key list means carrying a temperature or
humidity key. -/
theorem mem_claves1_iff (T H : List Obs) (key : Option Fecha × String) :
    key ∈ claves1 T H ↔
      (∃ t ∈ T, obsKey t = key) ∨ ∃ h ∈ H, obsKey h = key := by
  constructor
  · intro hk
    rcases List.mem_append.mp hk with h | h
    · rcases List.mem_map.mp h with ⟨t, ht, hth⟩
      exact Or.inl ⟨t, ht, hth⟩
    · rcases List.mem_map.mp h with ⟨x, hx, hxk⟩
      exact Or.inr ⟨x, (List.mem_filter.mp hx).1, hxk⟩
  · intro hk
    rcases hk with ⟨t, ht, hth⟩ | ⟨x, hx, hxk⟩
    · exact hth ▸ mem_claves1_T T H t ht
    · exact hxk ▸ mem_claves1_H T H x hx

/-- A merge-1 row's key is a merge-1 key (under duplicate-free keys). -/
theorem clima_merge1_any_key (T H : List Obs)
    (h1 : (T.map obsKey).Nodup) (h2 : (H.map obsKey).Nodup)
    (key : Option Fecha × String) :
    ((clima_merge1 T H).any
      (fun l => decide ((l.fecha, l.estacion_id) = key))) = true
      ↔ key ∈ claves1 T H := by
  rw [clima_merge1_eq T H h1 h2]
  simp only [List.any_eq_true, decide_eq_true_eq]
  constructor
  · rintro ⟨row, hrow, hrowe⟩
    rcases List.mem_map.mp hrow with ⟨k2, hk2, hk2row⟩
    rw [← hk2row] at hrowe
    have hpair : ((filaH1 T H k2).fecha, (filaH1 T H k2).estacion_id) = k2 := rfl
    rw [hpair] at hrowe
    exact hrowe ▸ hk2
  · intro hk
    exact ⟨filaH1 T H key, List.mem_map_of_mem (filaH1 T H) hk, rfl⟩

/-- Under duplicate-free keys, the hourly climate table is the per-key
three-way lookup table over its key list. -/
theorem df_clima_horario_eq (T H P : List Obs)
    (h1 : (T.map obsKey).Nodup) (h2 : (H.map obsKey).Nodup)
    (h3 : (P.map obsKey).Nodup) :
    df_clima_horario T H P = (clavesHorario T H P).map (filaH2 T H P) := by
  unfold df_clima_horario
  rw [outerMerge_eq _ _ _ _ _ _ h3]
  unfold clavesHorario
  rw [List.map_append, List.map_map]
  congr 1
  · rw [clima_merge1_eq T H h1 h2, List.map_map]
    refine List.map_congr_left (fun key hk => ?_)
    rfl
  · refine List.map_congr_left (fun p hp => ?_)
    have hmem := List.mem_filter.mp hp
    have hnok : obsKey p ∉ claves1 T H := by
      intro hk
      have := (clima_merge1_any_key T H h1 h2 (obsKey p)).mpr hk
      rw [this] at hmem
      exact absurd hmem.2 (by simp)
    have hnoT : ∀ x ∈ T, obsKey x ≠ obsKey p := by
      intro x hx he
      exact hnok (he ▸ mem_claves1_T T H x hx)
    have hnoH : ∀ x ∈ H, obsKey x ≠ obsKey p := by
      intro x hx he
      exact hnok (he ▸ mem_claves1_H T H x hx)
    show _ = filaH2 T H P (obsKey p)
    unfold filaH2 lookVal
    rw [(buscar_eq_none obsKey T (obsKey p)).mpr hnoT,
      (buscar_eq_none obsKey H (obsKey p)).mpr hnoH,
      buscar_self obsKey P p h3 hmem.1]
    rfl

/-- Every metric key appears in the hourly key list. -/
theorem mem_clavesHorario (T H P : List Obs)
    (h1 : (T.map obsKey).Nodup) (h2 : (H.map obsKey).Nodup)
    (x : Obs) (hx : x ∈ T ∨ x ∈ H ∨ x ∈ P) :
    obsKey x ∈ clavesHorario T H P := by
  rcases hx with hx | hx | hx
  · exact List.mem_append_left _ (mem_claves1_T T H x hx)
  · exact List.mem_append_left _ (mem_claves1_H T H x hx)
  · by_cases hk : obsKey x ∈ claves1 T H
    · exact List.mem_append_left _ hk
    · refine List.mem_append_right _ (List.mem_map_of_mem obsKey ?_)
      rw [List.mem_filter]
      refine ⟨hx, ?_⟩
      simp only [Bool.not_eq_eq_eq_not, Bool.not_true]
      rw [← Bool.not_eq_true]
      intro hany
      exact hk ((clima_merge1_any_key T H h1 h2 (obsKey x)).mp hany)

/-- The merge-1 key list is duplicate-free. -/
theorem claves1_nodup (T H : List Obs)
    (h1 : (T.map obsKey).Nodup) (h2 : (H.map obsKey).Nodup) :
    (claves1 T H).Nodup := by
  unfold claves1
  refine List.Nodup.append h1 ?_ ?_
  · have hsub : ((H.filter (fun h =>
        !(T.any (fun t => decide (obsKey t = obsKey h))))).map obsKey).Sublist
        (H.map obsKey) := (List.filter_sublist H).map obsKey
    exact h2.sublist hsub
  · intro key hkT hkH
    rcases List.mem_map.mp hkH with ⟨x, hx, hxk⟩
    have hmem := List.mem_filter.mp hx
    have hnoT : ∀ t ∈ T, obsKey t ≠ obsKey x := by
      have h2b := hmem.2
      simp only [Bool.not_eq_eq_eq_not, Bool.not_true, List.any_eq_false,
        decide_eq_true_eq] at h2b
      exact h2b
    rcases List.mem_map.mp hkT with ⟨t, ht, htk⟩
    exact hnoT t ht (by rw [htk, hxk])

/-- The hourly key list is duplicate-free. -/
theorem clavesHorario_nodup (T H P : List Obs)
    (h1 : (T.map obsKey).Nodup) (h2 : (H.map obsKey).Nodup)
    (h3 : (P.map obsKey).Nodup) :
    (clavesHorario T H P).Nodup := by
  unfold clavesHorario
  refine List.Nodup.append (claves1_nodup T H h1 h2) ?_ ?_
  · have hsub : ((P.filter (fun p => !((clima_merge1 T H).any
        (fun l => decide ((l.fecha, l.estacion_id) = obsKey p))))).map obsKey).Sublist
        (P.map obsKey) := (List.filter_sublist P).map obsKey
    exact h3.sublist hsub
  · intro key hk1 hkP
    rcases List.mem_map.mp hkP with ⟨x, hx, hxk⟩
    have hmem := List.mem_filter.mp hx
    have hnok : ¬ ((clima_merge1 T H).any
        (fun l => decide ((l.fecha, l.estacion_id) = obsKey x))) = true := by
      have h2b := hmem.2
      simp only [Bool.not_eq_eq_eq_not, Bool.not_true] at h2b
      simp [h2b]
    exact hnok ((clima_merge1_any_key T H h1 h2 (obsKey x)).mpr (hxk ▸ hk1))

/-- Under duplicate-free keys, the enriched climate table is the per-key
lookup over the hourly key list, filtered by directory membership. -/
theorem clima_enriquecido_eq (T H P : List Obs) (est : List EstacionRow)
    (h1 : (T.map obsKey).Nodup) (h2 : (H.map obsKey).Nodup)
    (h3 : (P.map obsKey).Nodup)
    (h4 : (est.map EstacionRow.estacion_id).Nodup) :
    clima_enriquecido T H P est
      = (clavesHorario T H P).filterMap (fun key =>
          (buscar EstacionRow.estacion_id est key.2).map (fun e =>
            (⟨key.1, key.2, lookVal T key, lookVal H key, lookVal P key,
              e.departamento⟩ : ClimaH3))) := by
  unfold clima_enriquecido
  rw [innerMerge_eq _ _ _ _ _ h4, df_clima_horario_eq T H P h1 h2 h3,
    List.filterMap_map]
  rfl

/-- Filtering the per-key enriched table to one `(month, region)` group keeps
exactly the keys in that group. -/
theorem filtrado_grupo (T H P : List Obs) (est : List EstacionRow)
    (m : Mes) (d : String) :
    ∀ KS : List (Option Fecha × String),
    (KS.filterMap (fun key =>
        (buscar EstacionRow.estacion_id est key.2).map (fun e =>
          (⟨key.1, key.2, lookVal T key, lookVal H key, lookVal P key,
            e.departamento⟩ : ClimaH3)))).filter
      (fun r => decide (climaClave r = some (m, d)))
      = (KS.filter (grpB est m d)).map (fun key =>
          (⟨key.1, key.2, lookVal T key, lookVal H key, lookVal P key, d⟩ :
            ClimaH3)) := by
  intro KS
  induction KS with
  | nil => rfl
  | cons key t ih =>
    rw [List.filterMap_cons]
    cases hb : buscar EstacionRow.estacion_id est key.2 with
    | none =>
      simp only [Option.map_none']
      have hgrp : grpB est m d key = false := by
        unfold grpB estDirLookup
        rw [hb]
        simp
      rw [List.filter_cons_of_neg (by simp [hgrp])]
      exact ih
    | some e =>
      simp only [Option.map_some']
      have hdir : estDirLookup est key.2 = some e.departamento := by
        unfold estDirLookup
        rw [hb]
        rfl
      by_cases hg : grpB est m d key = true
      · have hgs := hg
        unfold grpB at hgs
        simp only [Bool.and_eq_true, decide_eq_true_eq] at hgs
        have hed : e.departamento = d := by
          have h5 := hgs.2
          rw [hdir] at h5
          exact Option.some.inj h5
        have hq : climaClave (⟨key.1, key.2, lookVal T key, lookVal H key,
            lookVal P key, e.departamento⟩ : ClimaH3) = some (m, d) := by
          unfold climaClave
          rcases hf : key.1 with _ | f
          · rw [hf] at hgs
            cases hgs.1
          · rw [hf] at hgs
            have h6 : f.mes = m := by
              have := hgs.1
              simp only [Option.map_some', Option.some.injEq] at this
              exact this
            show some (f.mes, e.departamento) = some (m, d)
            rw [h6, hed]
        rw [List.filter_cons_of_pos (by simp [hq]),
          List.filter_cons_of_pos (by simp [hg]), List.map_cons, ih, hed]
      · have hq : ¬ (climaClave (⟨key.1, key.2, lookVal T key, lookVal H key,
            lookVal P key, e.departamento⟩ : ClimaH3) = some (m, d)) := by
          intro hcc
          apply hg
          unfold climaClave at hcc
          rcases hf : key.1 with _ | f
          · rw [hf] at hcc
            cases hcc
          · rw [hf] at hcc
            have h6 : f.mes = m ∧ e.departamento = d := by
              have := Option.some.inj hcc
              exact Prod.mk.injEq .. ▸ this
            unfold grpB
            simp only [Bool.and_eq_true, decide_eq_true_eq]
            constructor
            · rw [hf, Option.map_some', h6.1]
            · rw [hdir, h6.2]
        rw [List.filter_cons_of_neg (by simpa using hq),
          List.filter_cons_of_neg (by simp [hg])]
        exact ih

/-- Collecting one metric's non-null values over a duplicate-free key set
equals, up to permutation, the non-null readings of that metric whose key
satisfies the group predicate. -/
theorem busca_perm (p : Option Fecha × String → Bool) :
    ∀ (KS : List (Option Fecha × String)) (xs : List Obs),
    KS.Nodup → (xs.map obsKey).Nodup →
    (∀ key ∈ KS, p key = true) →
    (∀ x ∈ xs, p (obsKey x) = true → obsKey x ∈ KS) →
    List.Perm ((KS.map (lookVal xs)).filterMap id)
      (((xs.filter (fun o => p (obsKey o))).map Obs.val).filterMap id)
  | [], xs, _, _, _, hcov => by
    have hemp : xs.filter (fun o => p (obsKey o)) = [] := by
      rw [List.filter_eq_nil_iff]
      intro x hx hpx
      exact absurd (hcov x hx (by simpa using hpx)) (List.not_mem_nil _)
    rw [hemp]
    exact List.Perm.refl _
  | key :: t, xs, hnd, hxnd, hKp, hcov => by
    have hnd2 := List.nodup_cons.mp hnd
    have hpkey : p key = true := hKp key (List.mem_cons_self key t)
    have hKp2 : ∀ k ∈ t, p k = true := fun k hk => hKp k (List.mem_cons_of_mem key hk)
    rw [List.map_cons]
    cases hb : buscar obsKey xs key with
    | none =>
      have hnone : lookVal xs key = none := by unfold lookVal; rw [hb]; rfl
      rw [List.filterMap_cons_none (by rw [hnone]; rfl)]
      have hcov2 : ∀ x ∈ xs, p (obsKey x) = true → obsKey x ∈ t := by
        intro x hx hpx
        rcases List.mem_cons.mp (hcov x hx hpx) with h | h
        · exact absurd h ((buscar_eq_none obsKey xs key).mp hb x hx)
        · exact h
      exact busca_perm p t xs hnd2.2 hxnd hKp2 hcov2
    | some x0 =>
      have hx0 := buscar_mem obsKey xs key x0 hb
      have hval : lookVal xs key = x0.val := by unfold lookVal; rw [hb]; rfl
      have hxsnodup : xs.Nodup := hxnd.of_map
      have hperm_xs : List.Perm xs (x0 :: xs.erase x0) :=
        List.perm_cons_erase hx0.1
      have hxnd2 : ((xs.erase x0).map obsKey).Nodup :=
        hxnd.sublist ((xs.erase_sublist x0).map obsKey)
      have htail : t.map (lookVal xs) = t.map (lookVal (xs.erase x0)) := by
        refine List.map_congr_left (fun k hk => ?_)
        unfold lookVal
        rw [buscar_erase obsKey xs x0 k (by
          rw [hx0.2]
          intro he
          exact hnd2.1 (he ▸ hk))]
      have hcov2 : ∀ x ∈ xs.erase x0, p (obsKey x) = true → obsKey x ∈ t := by
        intro x hx hpx
        have hxmem : x ∈ xs := (xs.erase_sublist x0).mem hx
        rcases List.mem_cons.mp (hcov x hxmem hpx) with h | h
        · exfalso
          have hxx0 : x = x0 :=
            List.inj_on_of_nodup_map hxnd hxmem hx0.1 (by rw [h, hx0.2])
          rw [hxx0] at hx
          exact ((List.Nodup.mem_erase_iff hxsnodup).mp hx).1 rfl
        · exact h
      have ihp := busca_perm p t (xs.erase x0) hnd2.2 hxnd2 hKp2 hcov2
      have hq0 : p (obsKey x0) = true := by rw [hx0.2]; exact hpkey
      have hfperm : List.Perm (xs.filter (fun o => p (obsKey o)))
          (x0 :: (xs.erase x0).filter (fun o => p (obsKey o))) := by
        have h7 := hperm_xs.filter (fun o => p (obsKey o))
        rw [List.filter_cons_of_pos (by simpa using hq0)] at h7
        exact h7
      have chainR : List.Perm
          (((xs.filter (fun o => p (obsKey o))).map Obs.val).filterMap id)
          ((x0.val :: ((xs.erase x0).filter (fun o => p (obsKey o))).map
            Obs.val).filterMap id) := by
        have h8 := (hfperm.map Obs.val).filterMap id
        rw [List.map_cons] at h8
        exact h8
      rw [hval, htail]
      cases hv : x0.val with
      | none =>
        rw [hv] at chainR
        rw [List.filterMap_cons_none (show id (none : Option ℚ) = none from rfl)]
        rw [List.filterMap_cons_none (show id (none : Option ℚ) = none from rfl)] at chainR
        exact ihp.trans chainR.symm
      | some v =>
        rw [hv] at chainR
        rw [List.filterMap_cons_some (show id (some v) = some v from rfl)]
        rw [List.filterMap_cons_some (show id (some v) = some v from rfl)] at chainR
        exact (ihp.cons v).trans chainR.symm

/-- Sums agree across a permutation of the non-null cells. -/
theorem psum_congr (l₁ l₂ : List (Option ℚ))
    (h : List.Perm (l₁.filterMap id) (l₂.filterMap id)) : psum l₁ = psum l₂ :=
  h.sum_eq

/-- Means agree across a permutation of the non-null cells. -/
theorem pmean_congr (l₁ l₂ : List (Option ℚ))
    (h : List.Perm (l₁.filterMap id) (l₂.filterMap id)) : pmean l₁ = pmean l₂ := by
  unfold pmean
  have hlen := h.length_eq
  have hsum := h.sum_eq
  by_cases he : (l₁.filterMap id).isEmpty
  · have he2 : (l₂.filterMap id).isEmpty := by
      rw [List.isEmpty_iff] at he ⊢
      rw [he] at h
      exact (h.symm).eq_nil
    rw [if_pos he, if_pos he2]
  · have he2 : ¬ (l₂.filterMap id).isEmpty := by
      intro hcon
      apply he
      rw [List.isEmpty_iff] at hcon ⊢
      rw [hcon] at h
      exact h.eq_nil
    rw [if_neg he, if_neg he2, hsum, hlen]

/-- C3: for every `(month, region)` group of the monthly climate table, the
precipitation field is the sum of the station-hour precipitation readings
mapped to that group, and the temperature and humidity fields are the
arithmetic means of the corresponding readings, each rounded once, to one
decimal, at finalization.  The key-uniqueness hypotheses state what the
claim's wording presupposes: one reading per station-hour per metric and one
directory entry per station (pandas merges would multiply duplicates). -/
theorem C3_theorem (temp : List TempRow) (hum : List HumRow)
    (precip : List PrecipRow) (est : List EstacionRow)
    (h1 : ((tempObs temp).map obsKey).Nodup)
    (h2 : ((humObs hum).map obsKey).Nodup)
    (h3 : ((precipObs precip).map obsKey).Nodup)
    (h4 : (est.map EstacionRow.estacion_id).Nodup)
    (r : ClimaMensualRow) (hr : r ∈ df_clima_mensual temp hum precip est) :
    r.precip_total_mm
      = round1 (psum (lecturas (precipObs precip) est r.mes_ano r.departamento)) ∧
    r.temp_media_c
      = (pmean (lecturas (tempObs temp) est r.mes_ano r.departamento)).map round1 ∧
    r.hum_media_pje
      = (pmean (lecturas (humObs hum) est r.mes_ano r.departamento)).map round1 := by
  unfold df_clima_mensual at hr
  rw [List.mem_map] at hr
  obtain ⟨k, hk, hkr⟩ := hr
  obtain ⟨m, d⟩ := k
  have hKSnd : ((clavesHorario (tempObs temp) (humObs hum) (precipObs precip)).filter
      (grpB est m d)).Nodup :=
    (clavesHorario_nodup _ _ _ h1 h2 h3).filter _
  have hKp : ∀ key ∈ (clavesHorario (tempObs temp) (humObs hum)
      (precipObs precip)).filter (grpB est m d), grpB est m d key = true :=
    fun key hk2 => (List.mem_filter.mp hk2).2
  have hcovT : ∀ x ∈ tempObs temp, grpB est m d (obsKey x) = true →
      obsKey x ∈ (clavesHorario (tempObs temp) (humObs hum)
        (precipObs precip)).filter (grpB est m d) :=
    fun x hx hpx => List.mem_filter.mpr
      ⟨mem_clavesHorario _ _ _ h1 h2 x (Or.inl hx), hpx⟩
  have hcovH : ∀ x ∈ humObs hum, grpB est m d (obsKey x) = true →
      obsKey x ∈ (clavesHorario (tempObs temp) (humObs hum)
        (precipObs precip)).filter (grpB est m d) :=
    fun x hx hpx => List.mem_filter.mpr
      ⟨mem_clavesHorario _ _ _ h1 h2 x (Or.inr (Or.inl hx)), hpx⟩
  have hcovP : ∀ x ∈ precipObs precip, grpB est m d (obsKey x) = true →
      obsKey x ∈ (clavesHorario (tempObs temp) (humObs hum)
        (precipObs precip)).filter (grpB est m d) :=
    fun x hx hpx => List.mem_filter.mpr
      ⟨mem_clavesHorario _ _ _ h1 h2 x (Or.inr (Or.inr hx)), hpx⟩
  have hpermT := busca_perm (grpB est m d) _ (tempObs temp) hKSnd h1 hKp hcovT
  have hpermH := busca_perm (grpB est m d) _ (humObs hum) hKSnd h2 hKp hcovH
  have hpermP := busca_perm (grpB est m d) _ (precipObs precip) hKSnd h3 hKp hcovP
  have hgT : (((clima_enriquecido (tempObs temp) (humObs hum) (precipObs precip)
        est).filter (fun r2 => decide (climaClave r2 = some (m, d)))).map
        ClimaH3.temperatura_c)
      = ((clavesHorario (tempObs temp) (humObs hum) (precipObs precip)).filter
          (grpB est m d)).map (lookVal (tempObs temp)) := by
    rw [clima_enriquecido_eq _ _ _ est h1 h2 h3 h4, filtrado_grupo, List.map_map]
    rfl
  have hgH : (((clima_enriquecido (tempObs temp) (humObs hum) (precipObs precip)
        est).filter (fun r2 => decide (climaClave r2 = some (m, d)))).map
        ClimaH3.humedad_pje)
      = ((clavesHorario (tempObs temp) (humObs hum) (precipObs precip)).filter
          (grpB est m d)).map (lookVal (humObs hum)) := by
    rw [clima_enriquecido_eq _ _ _ est h1 h2 h3 h4, filtrado_grupo, List.map_map]
    rfl
  have hgP : (((clima_enriquecido (tempObs temp) (humObs hum) (precipObs precip)
        est).filter (fun r2 => decide (climaClave r2 = some (m, d)))).map
        ClimaH3.precipitacion_mm)
      = ((clavesHorario (tempObs temp) (humObs hum) (precipObs precip)).filter
          (grpB est m d)).map (lookVal (precipObs precip)) := by
    rw [clima_enriquecido_eq _ _ _ est h1 h2 h3 h4, filtrado_grupo, List.map_map]
    rfl
  refine ⟨?_, ?_, ?_⟩
  · rw [← hkr]
    exact congrArg round1 (by rw [hgP]; exact psum_congr _ _ hpermP)
  · rw [← hkr]
    exact congrArg (Option.map round1) (by rw [hgT]; exact pmean_congr _ _ hpermT)
  · rw [← hkr]
    exact congrArg (Option.map round1) (by rw [hgH]; exact pmean_congr _ _ hpermH)

/-- C3, witness: the aggregation theorem discharged on the one-station
example tables. -/
theorem C3_witness :
    ((tempObs tempEj).map obsKey).Nodup ∧
    climaEjRow ∈ df_clima_mensual tempEj humEj precipEj estEj ∧
    (climaEjRow.precip_total_mm
        = round1 (psum (lecturas (precipObs precipEj) estEj climaEjRow.mes_ano
            climaEjRow.departamento)) ∧
      climaEjRow.temp_media_c
        = (pmean (lecturas (tempObs tempEj) estEj climaEjRow.mes_ano
            climaEjRow.departamento)).map round1 ∧
      climaEjRow.hum_media_pje
        = (pmean (lecturas (humObs humEj) estEj climaEjRow.mes_ano
            climaEjRow.departamento)).map round1) :=
  ⟨by decide, by decide,
    C3_theorem tempEj humEj precipEj estEj (by decide) (by decide) (by decide)
      (by decide) climaEjRow (by decide)⟩
